import Mathlib

/-!
Verification of `stan::common::run_markov_chain` and of the `check_x` precondition checks.

A shallow embedding of `src/stan/common/run_markov_chain.hpp`.

The C++ function drives opaque collaborators (the sampler, the writer, the
resume recorder, the progress printer and the start-of-transition callback).
Each collaborator is a parameter of the embedding: a function on the part of
the program state the call can reach, returning `Except E _` because any of
them may throw.  The runner itself is translated statement by statement; every
collaborator call it issues is appended to a log, so that statements about
"which calls, in which order, with which arguments" are statements about a
list.

Type parameters, used throughout:
`S` chain state (`stan::mcmc::sample`), `A` sampler-internal state,
`R` random-number-generator state, `W` writer state, `K` content of the
checkpoint store behind `resume_recorder`, `O` the output stream, `C` the
callback's own state, `M` the model, `E` the exceptions.
-/

namespace Stan

/-! ## Data model -/

/-- The ways a run can stop before its last statement: an exception thrown by a
collaborator, or the undefined remainder `m % 0`. -/
inductive Fault (E : Type) where
  | raised (e : E)
  | remainder_by_zero
  deriving DecidableEq

/-- One collaborator call issued by `run_markov_chain`, with the arguments it
was given.  The field `m` of the calls made inside the `for` loop is the value
of the loop variable at the time of the call. -/
inductive Call (S A R M : Type) where
  | load_sampler_specific (sampler : A)
  | load_rng (rng : R)
  | callback (m : Nat)
  | print_progress (m : Nat)
  | transition (m : Nat) (s : S)
  | write_sample_params (m : Nat) (rng : R) (s : S) (sampler : A) (model : M)
  | write_diagnostic_params (m : Nat) (s : S) (sampler : A)
  | save_inits (model : M) (rng : R) (s : S)
  | save_sampler_specific (sampler : A)
  | save_rng (rng : R)
  deriving DecidableEq

/-- The mutable objects `run_markov_chain` receives by reference or pointer:
`init_s`, `*sampler`, `base_rng`, `writer`, `o`, `callback`, and the storage
behind `resume_recorder` (the recorder object itself is passed by value; what
persists between calls is the storage it writes to). -/
structure World (S A R W K O C : Type) where
  init_s : S
  sampler : A
  base_rng : R
  writer : W
  resume_recorder : K
  o : O
  callback : C
  deriving DecidableEq

/-- The arguments `run_markov_chain` receives by value or const reference.
The C++ `int`s are embedded as `Int`: the only arithmetic the function does on
them is `++m` below `num_iterations` and `m % num_thin`, neither of which can
overflow. -/
structure Args where
  num_iterations : Int
  start : Int
  finish : Int
  num_thin : Int
  refresh : Int
  save : Bool
  warmup : Bool
  prefix_ : String
  suffix_ : String
  deriving DecidableEq

/-- The collaborators.  None of them is defined in the translated file
(`base_mcmc.hpp`, `mcmc_writer.hpp`, `print_progress.hpp` and the recorder are
only included or passed in): each is a parameter.  A call gets the state of
the objects passed to it and returns the new state of those it may change, or
throws.  Which objects a call may change follows the interface list of the
specification:
* `transition` is `sampler->transition(init_s)`: the sampler owns its adaptation
  state and draws from the generator, and returns the next chain state;
* the writer calls change the writer only (they do not mutate the state, the
  generator or the sampler they are given);
* the `load_` calls overwrite the object they are given from the store, the
  `save_` calls change the store only;
* `callback()` takes no argument and reaches only its own state,
  `print_progress` writes to the stream `o`. -/
structure Env (S A R W K O C M E : Type) where
  callback : C → Except E C
  print_progress : Int → Int → Int → Int → Bool → String → String → O → Except E O
  transition : A → R → S → Except E (A × R × S)
  write_sample_params : W → R → S → A → M → Except E W
  write_diagnostic_params : W → S → A → Except E W
  load_sampler_specific : K → A → Except E (K × A)
  load_rng : K → R → Except E (K × R)
  save_inits : K → M → R → S → Except E K
  save_sampler_specific : K → A → Except E K
  save_rng : K → R → Except E K

/-- What a piece of the program did: the calls it issued, oldest first, the
fault that stopped it (if any), and the state it left.  When a call throws, it
is the last entry of `calls`, and `state` is the state the call was issued
in. -/
structure Run (E σ κ : Type) where
  calls : List κ
  fault : Option (Fault E)
  state : σ
  deriving DecidableEq

section Sequencing

variable {E σ κ : Type}

/-- The empty statement. -/
def Run.skip (w : σ) : Run E σ κ := ⟨[], none, w⟩

/-- Sequential composition `r; f`: when `r` stopped with a fault nothing of `f`
is executed (no `try`/`catch` anywhere in the function). -/
def Run.andThen (r : Run E σ κ) (f : σ → Run E σ κ) : Run E σ κ :=
  match r.fault with
  | some _ => r
  | none => ⟨r.calls ++ (f r.state).calls, (f r.state).fault, (f r.state).state⟩

/-- One collaborator call: log it, then take its result or its exception.  A call that throws
hands no new state back, so the run stops in the state the call was issued in. -/
def invoke (c : κ) (res : Except E σ) (w : σ) : Run E σ κ :=
  match res with
  | .ok w' => ⟨[c], none, w'⟩
  | .error e => ⟨[c], some (.raised e), w⟩

end Sequencing

section Runner

variable {S A R W K O C M E : Type}

/-! ## The statements of `run_markov_chain` -/

/-- Line 35: `resume_recorder.load_sampler_specific(sampler);`. -/
def call_load_sampler_specific (env : Env S A R W K O C M E) (w : World S A R W K O C) :
    Run E (World S A R W K O C) (Call S A R M) :=
  invoke (.load_sampler_specific w.sampler)
    ((env.load_sampler_specific w.resume_recorder w.sampler).map
      fun ka => { w with resume_recorder := ka.1, sampler := ka.2 }) w

/-- Line 38: `resume_recorder.load_rng(base_rng);`. -/
def call_load_rng (env : Env S A R W K O C M E) (w : World S A R W K O C) :
    Run E (World S A R W K O C) (Call S A R M) :=
  invoke (.load_rng w.base_rng)
    ((env.load_rng w.resume_recorder w.base_rng).map
      fun kr => { w with resume_recorder := kr.1, base_rng := kr.2 }) w

/-- Line 42: `callback();`. -/
def call_callback (env : Env S A R W K O C M E) (m : Nat) (w : World S A R W K O C) :
    Run E (World S A R W K O C) (Call S A R M) :=
  invoke (.callback m) ((env.callback w.callback).map fun c => { w with callback := c }) w

/-- Line 44: `print_progress(m, start, finish, refresh, warmup, prefix, suffix, o);`. -/
def call_print_progress (env : Env S A R W K O C M E) (p : Args) (m : Nat)
    (w : World S A R W K O C) : Run E (World S A R W K O C) (Call S A R M) :=
  invoke (.print_progress m)
    ((env.print_progress m p.start p.finish p.refresh p.warmup p.prefix_ p.suffix_ w.o).map
      fun o => { w with o := o }) w

/-- Line 46: `init_s = sampler->transition(init_s);`. -/
def call_transition (env : Env S A R W K O C M E) (m : Nat) (w : World S A R W K O C) :
    Run E (World S A R W K O C) (Call S A R M) :=
  invoke (.transition m w.init_s)
    ((env.transition w.sampler w.base_rng w.init_s).map
      fun x => { w with sampler := x.1, base_rng := x.2.1, init_s := x.2.2 }) w

/-- Line 49: `writer.write_sample_params(base_rng, init_s, *sampler, model);`. -/
def call_write_sample_params (env : Env S A R W K O C M E) (model : M) (m : Nat)
    (w : World S A R W K O C) : Run E (World S A R W K O C) (Call S A R M) :=
  invoke (.write_sample_params m w.base_rng w.init_s w.sampler model)
    ((env.write_sample_params w.writer w.base_rng w.init_s w.sampler model).map
      fun wr => { w with writer := wr }) w

/-- Line 50: `writer.write_diagnostic_params(init_s, sampler);`. -/
def call_write_diagnostic_params (env : Env S A R W K O C M E) (m : Nat)
    (w : World S A R W K O C) : Run E (World S A R W K O C) (Call S A R M) :=
  invoke (.write_diagnostic_params m w.init_s w.sampler)
    ((env.write_diagnostic_params w.writer w.init_s w.sampler).map
      fun wr => { w with writer := wr }) w

/-- Line 57: `resume_recorder.save_inits(model, base_rng, init_s);`. -/
def call_save_inits (env : Env S A R W K O C M E) (model : M) (w : World S A R W K O C) :
    Run E (World S A R W K O C) (Call S A R M) :=
  invoke (.save_inits model w.base_rng w.init_s)
    ((env.save_inits w.resume_recorder model w.base_rng w.init_s).map
      fun k => { w with resume_recorder := k }) w

/-- Line 60: `resume_recorder.save_sampler_specific(sampler);`. -/
def call_save_sampler_specific (env : Env S A R W K O C M E) (w : World S A R W K O C) :
    Run E (World S A R W K O C) (Call S A R M) :=
  invoke (.save_sampler_specific w.sampler)
    ((env.save_sampler_specific w.resume_recorder w.sampler).map
      fun k => { w with resume_recorder := k }) w

/-- Line 63: `resume_recorder.save_rng(base_rng);`. -/
def call_save_rng (env : Env S A R W K O C M E) (w : World S A R W K O C) :
    Run E (World S A R W K O C) (Call S A R M) :=
  invoke (.save_rng w.base_rng)
    ((env.save_rng w.resume_recorder w.base_rng).map
      fun k => { w with resume_recorder := k }) w

/-- Lines 33-39: `if (!warmup) { load_sampler_specific; load_rng; }`. -/
def load_block (env : Env S A R W K O C M E) (p : Args) (w : World S A R W K O C) :
    Run E (World S A R W K O C) (Call S A R M) :=
  if !p.warmup then
    (call_load_sampler_specific env w).andThen fun w => call_load_rng env w
  else Run.skip w

/-- Lines 48-51: `if (save && ((m % num_thin) == 0)) { write_sample_params;
write_diagnostic_params; }`.  `&&` evaluates its right operand only when `save`
holds; `%` on `int` truncates towards zero (`Int.tmod`) and is undefined for a
zero divisor. -/
def record_block (env : Env S A R W K O C M E) (p : Args) (model : M) (m : Nat)
    (w : World S A R W K O C) : Run E (World S A R W K O C) (Call S A R M) :=
  if p.save then
    if p.num_thin = 0 then ⟨[], some .remainder_by_zero, w⟩
    else if (m : Int).tmod p.num_thin = 0 then
      (call_write_sample_params env model m w).andThen fun w =>
        call_write_diagnostic_params env m w
    else Run.skip w
  else Run.skip w

/-- Lines 42-51: the body of the `for` loop at loop variable `m`. -/
def loop_body (env : Env S A R W K O C M E) (p : Args) (model : M) (m : Nat)
    (w : World S A R W K O C) : Run E (World S A R W K O C) (Call S A R M) :=
  (call_callback env m w).andThen fun w =>
  (call_print_progress env p m w).andThen fun w =>
  (call_transition env m w).andThen fun w =>
  record_block env p model m w

/-- Lines 41-53: `for (int m = 0; m < num_iterations; ++m) body`, entered at
loop variable `m` with `k` iterations still to go.  Neither `m` nor
`num_iterations` is assigned in the body, so from `m = 0` the loop makes
`num_iterations` iterations, none when `num_iterations <= 0`. -/
def for_loop (env : Env S A R W K O C M E) (p : Args) (model : M) :
    Nat → Nat → World S A R W K O C → Run E (World S A R W K O C) (Call S A R M)
  | 0, _, w => Run.skip w
  | k + 1, m, w => (loop_body env p model m w).andThen (for_loop env p model k (m + 1))

/-- Lines 55-64: `if (!warmup) { save_inits; save_sampler_specific; save_rng; }`. -/
def save_block (env : Env S A R W K O C M E) (p : Args) (model : M)
    (w : World S A R W K O C) : Run E (World S A R W K O C) (Call S A R M) :=
  if !p.warmup then
    (call_save_inits env model w).andThen fun w =>
    (call_save_sampler_specific env w).andThen fun w =>
    call_save_rng env w
  else Run.skip w

/-- Lines 14-66: `run_markov_chain`. -/
def run_markov_chain (env : Env S A R W K O C M E) (p : Args) (model : M)
    (w : World S A R W K O C) : Run E (World S A R W K O C) (Call S A R M) :=
  (load_block env p w).andThen fun w =>
  (for_loop env p model p.num_iterations.toNat 0 w).andThen fun w =>
  save_block env p model w

/-! ## Vocabulary for statements about a run -/

/-- The sampler state, generator state and chain state of a world: what
`sampler->transition` reads and writes. -/
def World.chain (w : World S A R W K O C) : A × R × S := (w.sampler, w.base_rng, w.init_s)

/-- Consecutive sampler transitions with nothing in between: `n` calls of
`transition`, each on the state the previous one returned. -/
def transitions (env : Env S A R W K O C M E) : Nat → A × R × S → Except E (A × R × S)
  | 0, x => .ok x
  | n + 1, x =>
    match env.transition x.1 x.2.1 x.2.2 with
    | .ok x' => transitions env n x'
    | .error e => .error e

/-- The loop variable a call was made at, for the calls made inside the loop. -/
def Call.iter : Call S A R M → Option Nat
  | .callback m => some m
  | .print_progress m => some m
  | .transition m _ => some m
  | .write_sample_params m _ _ _ _ => some m
  | .write_diagnostic_params m _ _ => some m
  | _ => none

/-- A call of `load_sampler_specific` or `load_rng`. -/
def Call.isLoad : Call S A R M → Bool
  | .load_sampler_specific _ => true
  | .load_rng _ => true
  | _ => false

/-- A call of `save_inits`, `save_sampler_specific` or `save_rng`. -/
def Call.isSave : Call S A R M → Bool
  | .save_inits _ _ _ => true
  | .save_sampler_specific _ => true
  | .save_rng _ => true
  | _ => false

/-- A call of `write_sample_params` or `write_diagnostic_params`. -/
def Call.isWriter : Call S A R M → Bool
  | .write_sample_params _ _ _ _ _ => true
  | .write_diagnostic_params _ _ _ => true
  | _ => false

/-- A call of `sampler->transition`. -/
def Call.isTransition : Call S A R M → Bool
  | .transition _ _ => true
  | _ => false

/-- A call of `print_progress`. -/
def Call.isProgress : Call S A R M → Bool
  | .print_progress _ => true
  | _ => false

/-- The loop variable of a `write_sample_params` call. -/
def Call.sampleIndex : Call S A R M → Option Nat
  | .write_sample_params m _ _ _ _ => some m
  | _ => none

/-- The loop variable of a `write_diagnostic_params` call. -/
def Call.diagnosticIndex : Call S A R M → Option Nat
  | .write_diagnostic_params m _ _ => some m
  | _ => none

/-- The call `c`, issued in world `w`, throws `e`. -/
def Call.raises (env : Env S A R W K O C M E) (p : Args) (w : World S A R W K O C) (e : E) :
    Call S A R M → Prop
  | .load_sampler_specific a => env.load_sampler_specific w.resume_recorder a = .error e
  | .load_rng r => env.load_rng w.resume_recorder r = .error e
  | .callback _ => env.callback w.callback = .error e
  | .print_progress m =>
    env.print_progress m p.start p.finish p.refresh p.warmup p.prefix_ p.suffix_ w.o = .error e
  | .transition _ s => env.transition w.sampler w.base_rng s = .error e
  | .write_sample_params _ r s a model => env.write_sample_params w.writer r s a model = .error e
  | .write_diagnostic_params _ s a => env.write_diagnostic_params w.writer s a = .error e
  | .save_inits model r s => env.save_inits w.resume_recorder model r s = .error e
  | .save_sampler_specific a => env.save_sampler_specific w.resume_recorder a = .error e
  | .save_rng r => env.save_rng w.resume_recorder r = .error e

/-- The writer state obtained from `wr` by performing, in order, the writer
calls of a log (the other calls do not touch the writer); `none` if one of them
throws. -/
def writer_after (env : Env S A R W K O C M E) : List (Call S A R M) → W → Option W
  | [], wr => some wr
  | .write_sample_params _ r s a model :: cs, wr =>
    match env.write_sample_params wr r s a model with
    | .ok wr' => writer_after env cs wr'
    | .error _ => none
  | .write_diagnostic_params _ s a :: cs, wr =>
    match env.write_diagnostic_params wr s a with
    | .ok wr' => writer_after env cs wr'
    | .error _ => none
  | _ :: cs, wr => writer_after env cs wr

/-! ## The log of a run in which every call returns -/

/-- The calls of one loop iteration at loop variable `m` in which every call
returns: `s` is the chain state before the transition, `x'` what the transition
returned. -/
def iteration_calls (p : Args) (model : M) (m : Nat) (s : S) (x' : A × R × S) :
    List (Call S A R M) :=
  [.callback m, .print_progress m, .transition m s] ++
    if p.save = true ∧ (m : Int).tmod p.num_thin = 0 then
      [.write_sample_params m x'.2.1 x'.2.2 x'.1 model, .write_diagnostic_params m x'.2.2 x'.1]
    else []

/-- The calls of `k` loop iterations from loop variable `m` and state `x` in
which every call returns. -/
def loop_calls (env : Env S A R W K O C M E) (p : Args) (model : M) :
    Nat → Nat → A × R × S → List (Call S A R M)
  | 0, _, _ => []
  | k + 1, m, x =>
    match env.transition x.1 x.2.1 x.2.2 with
    | .ok x' => iteration_calls p model m x.2.2 x' ++ loop_calls env p model k (m + 1) x'
    | .error _ => []

/-- The calls `load_block` makes when both return. -/
def load_calls (p : Args) (w : World S A R W K O C) : List (Call S A R M) :=
  if p.warmup then [] else [.load_sampler_specific w.sampler, .load_rng w.base_rng]

/-- The calls `save_block` makes when all return. -/
def save_calls (p : Args) (model : M) (w : World S A R W K O C) : List (Call S A R M) :=
  if p.warmup then []
  else [.save_inits model w.base_rng w.init_s, .save_sampler_specific w.sampler,
    .save_rng w.base_rng]

/-- A piece of the program started in `w` propagates exceptions unchanged: when it stops on an
exception `e`, the last call of its log is the one that threw `e` (in the state the piece
leaves), and the writer is in the state produced by the writer calls before it; otherwise the
writer is in the state produced by all writer calls of the log. -/
def Propagates (env : Env S A R W K O C M E) (p : Args) (w : World S A R W K O C)
    (r : Run E (World S A R W K O C) (Call S A R M)) : Prop :=
  (∀ e, r.fault = some (.raised e) →
    ∃ pre c, r.calls = pre ++ [c] ∧ c.raises env p r.state e ∧
      writer_after env pre w.writer = some r.state.writer) ∧
  ((∀ e, r.fault ≠ some (.raised e)) → writer_after env r.calls w.writer = some r.state.writer)

/-- No collaborator ever throws. -/
def Env.Returns (env : Env S A R W K O C M E) : Prop :=
  (∀ c, ∃ c', env.callback c = .ok c') ∧
  (∀ m s f r b pre suf o, ∃ o', env.print_progress m s f r b pre suf o = .ok o') ∧
  (∀ a r s, ∃ x, env.transition a r s = .ok x) ∧
  (∀ wr r s a md, ∃ wr', env.write_sample_params wr r s a md = .ok wr') ∧
  (∀ wr s a, ∃ wr', env.write_diagnostic_params wr s a = .ok wr') ∧
  (∀ k a, ∃ x, env.load_sampler_specific k a = .ok x) ∧
  (∀ k r, ∃ x, env.load_rng k r = .ok x) ∧
  (∀ k md r s, ∃ k', env.save_inits k md r s = .ok k') ∧
  (∀ k a, ∃ k', env.save_sampler_specific k a = .ok k') ∧
  (∀ k r, ∃ k', env.save_rng k r = .ok k')

/-- A call of the start-of-transition callback. -/
def Call.isCallback : Call S A R M → Bool
  | .callback _ => true
  | _ => false

/-- What a `write_sample_params` call hands to the writer (generator, chain state, sampler),
without the loop index. -/
def Call.sample : Call S A R M → Option (R × S × A)
  | .write_sample_params _ r s a _ => some (r, s, a)
  | _ => none

/-- The effect of a logged call, performed in world `w` with the arguments it was logged with:
the collaborator applied to those arguments and to the state of the object the call is made on. -/
def Call.perform (env : Env S A R W K O C M E) (p : Args) (w : World S A R W K O C) :
    Call S A R M → Except E (World S A R W K O C)
  | .load_sampler_specific a =>
    (env.load_sampler_specific w.resume_recorder a).map
      fun ka => { w with resume_recorder := ka.1, sampler := ka.2 }
  | .load_rng r =>
    (env.load_rng w.resume_recorder r).map
      fun kr => { w with resume_recorder := kr.1, base_rng := kr.2 }
  | .callback _ => (env.callback w.callback).map fun c => { w with callback := c }
  | .print_progress m =>
    (env.print_progress m p.start p.finish p.refresh p.warmup p.prefix_ p.suffix_ w.o).map
      fun o => { w with o := o }
  | .transition _ s =>
    (env.transition w.sampler w.base_rng s).map
      fun x => { w with sampler := x.1, base_rng := x.2.1, init_s := x.2.2 }
  | .write_sample_params _ r s a model =>
    (env.write_sample_params w.writer r s a model).map fun wr => { w with writer := wr }
  | .write_diagnostic_params _ s a =>
    (env.write_diagnostic_params w.writer s a).map fun wr => { w with writer := wr }
  | .save_inits model r s =>
    (env.save_inits w.resume_recorder model r s).map fun k => { w with resume_recorder := k }
  | .save_sampler_specific a =>
    (env.save_sampler_specific w.resume_recorder a).map fun k => { w with resume_recorder := k }
  | .save_rng r =>
    (env.save_rng w.resume_recorder r).map fun k => { w with resume_recorder := k }

end Runner

/-! ## A concrete set of collaborators

Used to evaluate the runner on explicit inputs. -/

/-- Exceptions of the concrete collaborators. -/
inductive DemoError where
  | cancelled
  | io_failure
  deriving DecidableEq

/-- Content of the concrete checkpoint store. -/
structure DemoStore where
  inits : Nat
  sampler : Nat
  rng : Nat
  deriving DecidableEq

/-- Concrete collaborators on natural numbers.  The callback counts down and
throws `cancelled` at zero; the transition bumps the sampler's adaptation
counter, consumes one draw and moves the chain; the writer appends what it is
given to a list; the store returns on `load_` exactly what the matching `save_`
stored last. -/
def demoEnv : Env Nat Nat Nat (List Nat) DemoStore Nat Nat Unit DemoError where
  callback := fun c => if c = 0 then .error .cancelled else .ok (c - 1)
  print_progress := fun _ _ _ _ _ _ _ o => .ok (o + 1)
  transition := fun a r s => .ok (a + 1, r + 1, 2 * s + r)
  write_sample_params := fun wr _ s _ _ => .ok (wr ++ [s])
  write_diagnostic_params := fun wr _ a => .ok (wr ++ [a])
  load_sampler_specific := fun k _ => .ok (k, k.sampler)
  load_rng := fun k _ => .ok (k, k.rng)
  save_inits := fun k _ _ s => .ok { k with inits := s }
  save_sampler_specific := fun k a => .ok { k with sampler := a }
  save_rng := fun k r => .ok { k with rng := r }

/-- A start state for `demoEnv`: chain at 1, fresh sampler and generator, empty
writer, a store holding an older checkpoint, and a callback that allows `c`
iterations. -/
def demoWorld (c : Nat) : World Nat Nat Nat (List Nat) DemoStore Nat Nat :=
  { init_s := 1, sampler := 0, base_rng := 0, writer := [],
    resume_recorder := ⟨5, 7, 9⟩, o := 0, callback := c }

/-- Arguments for `demoEnv`: `n` iterations, thinning `k`. -/
def demoArgs (n k : Int) (save warmup : Bool) : Args :=
  { num_iterations := n, start := 0, finish := n, num_thin := k, refresh := 1,
    save := save, warmup := warmup, prefix_ := "", suffix_ := "" }

/-- As `demoEnv`, with a writer that has room for `cap` entries: `write_sample_params` throws
`io_failure` once the writer holds `cap` entries. -/
def fullDiskEnv (cap : Nat) : Env Nat Nat Nat (List Nat) DemoStore Nat Nat Unit DemoError :=
  { demoEnv with
    write_sample_params := fun wr _ s _ _ =>
      if wr.length < cap then .ok (wr ++ [s]) else .error .io_failure }

/-- As `demoEnv`, with a callback that never cancels: no collaborator throws. -/
def steadyEnv : Env Nat Nat Nat (List Nat) DemoStore Nat Nat Unit DemoError :=
  { demoEnv with callback := fun c => .ok (c + 1) }

/-! ## The precondition checks

`stan/prob/distributions_error_handling.hpp` is not among the translated files; only its test
`src/test/agrad/distributions_error_handling_test.cpp` is.  The checks are therefore modelled from
the specification, and the assertions of the test are evaluated on the model. -/

/-- The values a `stan::agrad::var` (a `double` with derivative bookkeeping) can hold, by the
classes the checks distinguish.  Every finite `double` is a rational number. -/
inductive Num where
  | nan
  | neg_inf
  | finite (q : ℚ)
  | pos_inf
  deriving DecidableEq

/-- `boost::math::isfinite`: neither an infinity nor NaN. -/
def Num.isfinite : Num → Bool
  | .finite _ => true
  | _ => false

/-- `std::isnan`. -/
def Num.isnan : Num → Bool
  | .nan => true
  | _ => false

/-- The error policy of a call: `default_policy` throws, `errno_policy` returns a sentinel. -/
inductive Policy where
  | throwing
  | sentinel
  deriving DecidableEq

/-- How a check ends: it returns a boolean, or it throws `std::domain_error` with the function
label and the offending value.  Either way `result` is the content of the caller's output
variable afterwards. -/
inductive Checked where
  | returned (b : Bool) (result : Num)
  | domain_error (function : String) (value : Num) (result : Num)
  deriving DecidableEq

/-- Modelled from the spec: the error-policy dispatch on an invalid input (the absent
`raise_domain_error` of the checks).  The throwing policy raises a domain error carrying the
offending value and the caller's label and leaves the output untouched; the sentinel policy
overwrites the output with NaN and returns `false`. -/
def report_invalid (policy : Policy) (function : String) (value result : Num) : Checked :=
  match policy with
  | .throwing => .domain_error function value result
  | .sentinel => .returned false .nan

/-- Modelled from the spec: the absent scalar `check_x(function, x, &result, policy)`
(`check_value` in the specification).  Valid iff `x` is finite; a valid input returns `true` and
leaves the output untouched, an invalid one is reported per the policy. -/
def check_x (function : String) (x result : Num) (policy : Policy) : Checked :=
  if x.isfinite then .returned true result else report_invalid policy function x result

/-- Modelled from the spec: the absent shape dispatch of `check_x` for an ordered sequence
(`std::vector<var>`): the scalar check applied to the elements from left to right, stopping at the
first element it rejects, whose outcome is the outcome of the whole check; `true` when no element
is rejected. -/
def check_x_vector (function : String) : List Num → Num → Policy → Checked
  | [], result, _ => .returned true result
  | x :: xs, result, policy =>
    match check_x function x result policy with
    | .returned true result' => check_x_vector function xs result' policy
    | outcome => outcome

/-- Modelled from the spec: the absent shape dispatch of `check_x` for a matrix
(`Eigen::Matrix<var, ...>`), given by its rows: the sequence check on the elements in row-major
order. -/
def check_x_matrix (function : String) (rows : List (List Num)) (result : Num)
    (policy : Policy) : Checked :=
  check_x_vector function rows.flatten result policy

/-- The comparison `a <= b` of two `double` values: false as soon as one side is NaN, `-inf` below
and `+inf` above every other number. -/
def Num.le : Num → Num → Bool
  | .nan, _ => false
  | _, .nan => false
  | .neg_inf, _ => true
  | _, .pos_inf => true
  | .finite a, .finite b => decide (a ≤ b)
  | _, _ => false

/-- Modelled from the spec: the absent `check_bounded_x(function, x, low, high, &result, policy)`
(`check_bounded_value` in the specification).  Invalid when `x` is NaN or infinite, whatever the
bounds; invalid when a bound is NaN, whatever `x`; otherwise valid iff `low <= x <= high`, both ends
included, so that `low = -inf` and `high = +inf` leave their side unconstrained.  A valid input
returns `true` and leaves the output untouched, an invalid one is reported per the policy. -/
def check_bounded_x (function : String) (x low high result : Num) (policy : Policy) : Checked :=
  if !x.isfinite then report_invalid policy function x result
  else if low.isnan then report_invalid policy function low result
  else if high.isnan then report_invalid policy function high result
  else if low.le x && x.le high then .returned true result
  else report_invalid policy function x result

/-! ## Sequential composition -/

section SequencingLemmas


variable {E σ κ : Type}

theorem Run.andThen_of_fault {r : Run E σ κ} {f : σ → Run E σ κ} {x : Fault E}
    (h : r.fault = some x) : r.andThen f = r := by
  simp [Run.andThen, h]

theorem Run.andThen_calls {r : Run E σ κ} {f : σ → Run E σ κ} (h : r.fault = none) :
    (r.andThen f).calls = r.calls ++ (f r.state).calls := by
  simp [Run.andThen, h]

theorem Run.andThen_fault {r : Run E σ κ} {f : σ → Run E σ κ} (h : r.fault = none) :
    (r.andThen f).fault = (f r.state).fault := by
  simp [Run.andThen, h]

theorem Run.andThen_state {r : Run E σ κ} {f : σ → Run E σ κ} (h : r.fault = none) :
    (r.andThen f).state = (f r.state).state := by
  simp [Run.andThen, h]

theorem Run.andThen_fault_eq_none {r : Run E σ κ} {f : σ → Run E σ κ} :
    (r.andThen f).fault = none ↔ r.fault = none ∧ (f r.state).fault = none := by
  cases h : r.fault with
  | none => simp [Run.andThen, h]
  | some x => simp [Run.andThen, h]

theorem Run.mem_andThen {r : Run E σ κ} {f : σ → Run E σ κ} {c : κ}
    (h : c ∈ (r.andThen f).calls) : c ∈ r.calls ∨ c ∈ (f r.state).calls := by
  cases hf : r.fault with
  | none => rw [Run.andThen_calls hf] at h; exact List.mem_append.mp h
  | some x => rw [Run.andThen_of_fault hf] at h; exact Or.inl h

theorem invoke_calls (c : κ) (res : Except E σ) (w : σ) : (invoke c res w).calls = [c] := by
  cases res <;> rfl

end SequencingLemmas

/-! ## The blocks of `run_markov_chain` -/

section RunnerLemmas

variable {S A R W K O C M E : Type}

theorem loop_body_done (env : Env S A R W K O C M E) (p : Args) (model : M) (m : Nat)
    (w : World S A R W K O C) (h : (loop_body env p model m w).fault = none) :
    ∃ x', env.transition w.sampler w.base_rng w.init_s = .ok x' ∧
      (loop_body env p model m w).calls = iteration_calls p model m w.init_s x' ∧
      (loop_body env p model m w).state.chain = x' ∧
      (loop_body env p model m w).state.resume_recorder = w.resume_recorder := by
  revert h
  unfold loop_body record_block call_callback call_print_progress call_transition
    call_write_sample_params call_write_diagnostic_params iteration_calls
  cases h1 : env.callback w.callback with
  | error e => simp [Run.andThen, invoke, Except.map]
  | ok c =>
    cases h2 : env.print_progress m p.start p.finish p.refresh p.warmup p.prefix_ p.suffix_ w.o with
    | error e => simp [Run.andThen, invoke, Except.map, h2]
    | ok o =>
      cases h3 : env.transition w.sampler w.base_rng w.init_s with
      | error e => simp [Run.andThen, invoke, Except.map, h2, h3]
      | ok x =>
        simp only [Run.andThen, invoke, Except.map, h2, h3]
        by_cases hs : p.save = true
        · by_cases hz : p.num_thin = 0
          · simp [hs, hz]
          · by_cases ht : (m : Int).tmod p.num_thin = 0
            · simp only [hs, hz, ht, if_true, if_false]
              cases h4 : env.write_sample_params w.writer x.2.1 x.2.2 x.1 model with
              | error e => simp [Run.skip]
              | ok wr =>
                cases h5 : env.write_diagnostic_params wr x.2.2 x.1 with
                | error e => simp [h5]
                | ok wr2 => simp [h5, World.chain]
            · simp [hs, hz, ht, Run.skip, World.chain]
        · simp [hs, Run.skip, World.chain]

theorem for_loop_done (env : Env S A R W K O C M E) (p : Args) (model : M) :
    ∀ (k m : Nat) (w : World S A R W K O C), (for_loop env p model k m w).fault = none →
      transitions env k w.chain = .ok (for_loop env p model k m w).state.chain ∧
      (for_loop env p model k m w).calls = loop_calls env p model k m w.chain ∧
      (for_loop env p model k m w).state.resume_recorder = w.resume_recorder := by
  intro k
  induction k with
  | zero => intro m w _; simp [for_loop, Run.skip, transitions, loop_calls]
  | succ k ih =>
    intro m w h
    rw [for_loop, Run.andThen_fault_eq_none] at h
    obtain ⟨x', hx, hc, hs, hk⟩ := loop_body_done env p model m w h.1
    obtain ⟨ht, hl, hr⟩ := ih (m + 1) _ h.2
    rw [for_loop, Run.andThen_state h.1, Run.andThen_calls h.1]
    refine ⟨?_, ?_, ?_⟩
    · rw [← ht, hs]; simp [transitions, World.chain, hx]
    · rw [hl, hc, hs]; simp [loop_calls, World.chain, hx]
    · rw [hr, hk]

theorem save_calls_congr (p : Args) (model : M) {w w' : World S A R W K O C}
    (h : w.chain = w'.chain) : save_calls p model w = save_calls p model w' := by
  simp only [World.chain, Prod.mk.injEq] at h
  simp [save_calls, h.1, h.2.1, h.2.2]

theorem load_block_warmup (env : Env S A R W K O C M E) (p : Args) (w : World S A R W K O C)
    (h : p.warmup = true) : (load_block env p w : Run E _ (Call S A R M)) = Run.skip w := by
  simp [load_block, h]

theorem save_block_warmup (env : Env S A R W K O C M E) (p : Args) (model : M)
    (w : World S A R W K O C) (h : p.warmup = true) : save_block env p model w = Run.skip w := by
  simp [save_block, h]

theorem load_block_done (env : Env S A R W K O C M E) (p : Args) (w : World S A R W K O C)
    (h : (load_block env p w : Run E _ (Call S A R M)).fault = none) :
    (load_block env p w : Run E _ (Call S A R M)).calls = load_calls p w ∧
    (load_block env p w : Run E _ (Call S A R M)).state.init_s = w.init_s ∧
    (load_block env p w : Run E _ (Call S A R M)).state.writer = w.writer := by
  revert h
  unfold load_block load_calls call_load_sampler_specific call_load_rng
  cases hw : p.warmup with
  | true => simp [Run.skip]
  | false =>
    cases h1 : env.load_sampler_specific w.resume_recorder w.sampler with
    | error e => simp [Run.andThen, invoke, Except.map]
    | ok ka =>
      cases h2 : env.load_rng ka.1 w.base_rng with
      | error e => simp [Run.andThen, invoke, Except.map, h2]
      | ok kr => simp [Run.andThen, invoke, Except.map, h2]

theorem save_block_done (env : Env S A R W K O C M E) (p : Args) (model : M)
    (w : World S A R W K O C) (h : (save_block env p model w).fault = none) :
    (save_block env p model w).calls = save_calls p model w ∧
    (save_block env p model w).state.chain = w.chain ∧
    (save_block env p model w).state.writer = w.writer := by
  revert h
  unfold save_block save_calls call_save_inits call_save_sampler_specific call_save_rng
  cases hw : p.warmup with
  | true => simp [Run.skip]
  | false =>
    cases h1 : env.save_inits w.resume_recorder model w.base_rng w.init_s with
    | error e => simp [Run.andThen, invoke, Except.map]
    | ok k1 =>
      cases h2 : env.save_sampler_specific k1 w.sampler with
      | error e => simp [Run.andThen, invoke, Except.map, h2]
      | ok k2 =>
        cases h3 : env.save_rng k2 w.base_rng with
        | error e => simp [Run.andThen, invoke, Except.map, h2, h3]
        | ok k3 => simp [Run.andThen, invoke, Except.map, h2, h3, World.chain]

theorem run_markov_chain_done (env : Env S A R W K O C M E) (p : Args) (model : M)
    (w : World S A R W K O C) (h : (run_markov_chain env p model w).fault = none) :
    (load_block env p w : Run E _ (Call S A R M)).fault = none ∧
    transitions env p.num_iterations.toNat (load_block env p w : Run E _ (Call S A R M)).state.chain
      = .ok (run_markov_chain env p model w).state.chain ∧
    (run_markov_chain env p model w).calls =
      load_calls p w ++
      loop_calls env p model p.num_iterations.toNat 0
        (load_block env p w : Run E _ (Call S A R M)).state.chain ++
      save_calls p model (run_markov_chain env p model w).state := by
  rw [run_markov_chain, Run.andThen_fault_eq_none, Run.andThen_fault_eq_none] at h
  obtain ⟨h0, h1, h2⟩ := h
  obtain ⟨hl, _, _⟩ := load_block_done env p w h0
  obtain ⟨ht, hc, _⟩ := for_loop_done env p model _ 0 _ h1
  obtain ⟨hs, hsc, _⟩ := save_block_done env p model _ h2
  have hst : (run_markov_chain env p model w).state =
      (save_block env p model (for_loop env p model p.num_iterations.toNat 0
        (load_block env p w).state).state).state := by
    rw [run_markov_chain, Run.andThen_state h0, Run.andThen_state h1]
  refine ⟨h0, ?_, ?_⟩
  · rw [hst, hsc]; exact ht
  · rw [hst]
    rw [run_markov_chain, Run.andThen_calls h0, Run.andThen_calls h1, hl, hc, hs]
    rw [save_calls_congr p model hsc, List.append_assoc]

theorem load_block_mem (env : Env S A R W K O C M E) (p : Args) (w : World S A R W K O C)
    {c : Call S A R M} (h : c ∈ (load_block env p w : Run E _ (Call S A R M)).calls) :
    c.isLoad = true ∧ p.warmup = false := by
  unfold load_block at h
  cases hw : p.warmup with
  | true => simp [hw, Run.skip] at h
  | false =>
    simp only [hw, Bool.not_false, if_true] at h
    rcases Run.mem_andThen h with h | h
    · simp only [call_load_sampler_specific, invoke_calls, List.mem_singleton] at h
      subst h; exact ⟨rfl, rfl⟩
    · simp only [call_load_rng, invoke_calls, List.mem_singleton] at h
      subst h; exact ⟨rfl, rfl⟩

theorem save_block_mem (env : Env S A R W K O C M E) (p : Args) (model : M)
    (w : World S A R W K O C) {c : Call S A R M} (h : c ∈ (save_block env p model w).calls) :
    c.isSave = true ∧ p.warmup = false := by
  unfold save_block at h
  cases hw : p.warmup with
  | true => simp [hw, Run.skip] at h
  | false =>
    simp only [hw, Bool.not_false, if_true] at h
    rcases Run.mem_andThen h with h | h
    · simp only [call_save_inits, invoke_calls, List.mem_singleton] at h
      subst h; exact ⟨rfl, rfl⟩
    · rcases Run.mem_andThen h with h | h
      · simp only [call_save_sampler_specific, invoke_calls, List.mem_singleton] at h
        subst h; exact ⟨rfl, rfl⟩
      · simp only [call_save_rng, invoke_calls, List.mem_singleton] at h
        subst h; exact ⟨rfl, rfl⟩

theorem record_block_mem (env : Env S A R W K O C M E) (p : Args) (model : M) (m : Nat)
    (w : World S A R W K O C) {c : Call S A R M} (h : c ∈ (record_block env p model m w).calls) :
    c.iter = some m ∧ c.isWriter = true ∧ p.save = true ∧ p.num_thin ≠ 0 ∧
      (m : Int).tmod p.num_thin = 0 := by
  unfold record_block at h
  by_cases hs : p.save = true
  · by_cases hz : p.num_thin = 0
    · simp [hs, hz] at h
    · by_cases ht : (m : Int).tmod p.num_thin = 0
      · simp only [hs, hz, ht, if_true, if_false] at h
        rcases Run.mem_andThen h with h | h
        · simp only [call_write_sample_params, invoke_calls, List.mem_singleton] at h
          subst h; exact ⟨rfl, rfl, hs, hz, ht⟩
        · simp only [call_write_diagnostic_params, invoke_calls, List.mem_singleton] at h
          subst h; exact ⟨rfl, rfl, hs, hz, ht⟩
      · simp [hs, hz, ht, Run.skip] at h
  · simp [hs, Run.skip] at h

theorem loop_body_mem (env : Env S A R W K O C M E) (p : Args) (model : M) (m : Nat)
    (w : World S A R W K O C) {c : Call S A R M} (h : c ∈ (loop_body env p model m w).calls) :
    c.iter = some m ∧
      (c.isWriter = true → p.save = true ∧ p.num_thin ≠ 0 ∧ (m : Int).tmod p.num_thin = 0) := by
  unfold loop_body at h
  rcases Run.mem_andThen h with h | h
  · simp only [call_callback, invoke_calls, List.mem_singleton] at h
    subst h; exact ⟨rfl, by simp [Call.isWriter]⟩
  · rcases Run.mem_andThen h with h | h
    · simp only [call_print_progress, invoke_calls, List.mem_singleton] at h
      subst h; exact ⟨rfl, by simp [Call.isWriter]⟩
    · rcases Run.mem_andThen h with h | h
      · simp only [call_transition, invoke_calls, List.mem_singleton] at h
        subst h; exact ⟨rfl, by simp [Call.isWriter]⟩
      · obtain ⟨h1, _, h3⟩ := record_block_mem env p model m _ h
        exact ⟨h1, fun _ => h3⟩

theorem for_loop_mem (env : Env S A R W K O C M E) (p : Args) (model : M) :
    ∀ (k m : Nat) (w : World S A R W K O C) {c : Call S A R M},
      c ∈ (for_loop env p model k m w).calls →
      ∃ i, m ≤ i ∧ i < m + k ∧ c.iter = some i ∧
        (c.isWriter = true → p.save = true ∧ p.num_thin ≠ 0 ∧ (i : Int).tmod p.num_thin = 0) := by
  intro k
  induction k with
  | zero => intro m w c h; simp [for_loop, Run.skip] at h
  | succ k ih =>
    intro m w c h
    rw [for_loop] at h
    rcases Run.mem_andThen h with h | h
    · obtain ⟨h1, h2⟩ := loop_body_mem env p model m w h
      exact ⟨m, le_refl m, by omega, h1, h2⟩
    · obtain ⟨i, h1, h2, h3⟩ := ih (m + 1) _ h
      exact ⟨i, by omega, by omega, h3⟩

theorem Call.not_load_of_iter {c : Call S A R M} {i : Nat} (h : c.iter = some i) :
    c.isLoad = false := by
  cases c <;> simp [Call.iter] at h <;> rfl

theorem Call.not_save_of_iter {c : Call S A R M} {i : Nat} (h : c.iter = some i) :
    c.isSave = false := by
  cases c <;> simp [Call.iter] at h <;> rfl

theorem Call.not_save_of_load {c : Call S A R M} (h : c.isLoad = true) : c.isSave = false := by
  cases c <;> simp [Call.isLoad] at h <;> rfl

theorem Call.not_writer_of_load {c : Call S A R M} (h : c.isLoad = true) :
    c.isWriter = false := by
  cases c <;> simp [Call.isLoad] at h <;> rfl

theorem Call.not_writer_of_save {c : Call S A R M} (h : c.isSave = true) :
    c.isWriter = false := by
  cases c <;> simp [Call.isSave] at h <;> rfl

theorem Call.iter_of_load {c : Call S A R M} (h : c.isLoad = true) : c.iter = none := by
  cases c <;> simp [Call.isLoad] at h <;> rfl

theorem Call.iter_of_save {c : Call S A R M} (h : c.isSave = true) : c.iter = none := by
  cases c <;> simp [Call.isSave] at h <;> rfl

theorem for_loop_fault (env : Env S A R W K O C M E) (p : Args) (model : M) :
    ∀ (k m : Nat) (w : World S A R W K O C) (f : Fault E),
      (for_loop env p model k m w).fault = some f →
      ∃ j, j < k ∧ (for_loop env p model j m w).fault = none ∧
        (loop_body env p model (m + j) (for_loop env p model j m w).state).fault = some f ∧
        (for_loop env p model k m w).calls =
          (for_loop env p model j m w).calls ++
            (loop_body env p model (m + j) (for_loop env p model j m w).state).calls ∧
        (for_loop env p model k m w).state =
          (loop_body env p model (m + j) (for_loop env p model j m w).state).state := by
  intro k
  induction k with
  | zero => intro m w f h; simp [for_loop, Run.skip] at h
  | succ k ih =>
    intro m w f h
    cases hb : (loop_body env p model m w).fault with
    | some x =>
      rw [for_loop, Run.andThen_of_fault hb] at h ⊢
      exact ⟨0, Nat.succ_pos k, rfl, by simpa [for_loop, Run.skip] using h,
        by simp [for_loop, Run.skip], by simp [for_loop, Run.skip]⟩
    | none =>
      rw [for_loop, Run.andThen_fault hb] at h
      obtain ⟨j, hj, h1, h2, h3, h4⟩ := ih (m + 1) _ f h
      have hm : m + (j + 1) = m + 1 + j := by omega
      refine ⟨j + 1, by omega, ?_, ?_, ?_, ?_⟩
      · rw [for_loop, Run.andThen_fault_eq_none]; exact ⟨hb, h1⟩
      · rw [hm]; rw [for_loop, Run.andThen_state hb]; exact h2
      · rw [hm]
        rw [for_loop, Run.andThen_calls hb, h3, for_loop, Run.andThen_calls hb,
          Run.andThen_state hb, List.append_assoc]
      · rw [hm]
        rw [for_loop, Run.andThen_state hb, h4, for_loop, Run.andThen_state hb]

end RunnerLemmas

/-! ## Runs that return -/

section Totality
variable {S A R W K O C M E : Type}

theorem invoke_fault_of_ok {σ κ : Type} (c : κ) (res : Except E σ) (w : σ)
    (h : ∃ w', res = .ok w') : (invoke c res w).fault = none := by
  obtain ⟨w', rfl⟩ := h
  rfl

theorem map_ok {α β : Type} {x : Except E α} (f : α → β) (h : ∃ a, x = .ok a) :
    ∃ b, x.map f = .ok b := by
  obtain ⟨a, rfl⟩ := h
  exact ⟨f a, rfl⟩

theorem loop_body_returns (env : Env S A R W K O C M E) (p : Args) (model : M) (m : Nat)
    (w : World S A R W K O C) (henv : env.Returns) (hz : p.save = true → p.num_thin ≠ 0) :
    (loop_body env p model m w).fault = none := by
  obtain ⟨h1, h2, h3, h4, h5, _⟩ := henv
  unfold loop_body
  rw [Run.andThen_fault_eq_none]
  refine ⟨invoke_fault_of_ok _ _ _ (map_ok _ (h1 _)), ?_⟩
  rw [Run.andThen_fault_eq_none]
  refine ⟨invoke_fault_of_ok _ _ _ (map_ok _ (h2 _ _ _ _ _ _ _ _)), ?_⟩
  rw [Run.andThen_fault_eq_none]
  refine ⟨invoke_fault_of_ok _ _ _ (map_ok _ (h3 _ _ _)), ?_⟩
  unfold record_block
  split
  · rename_i hs
    rw [if_neg (hz hs)]
    split
    · rw [Run.andThen_fault_eq_none]
      exact ⟨invoke_fault_of_ok _ _ _ (map_ok _ (h4 _ _ _ _ _)),
        invoke_fault_of_ok _ _ _ (map_ok _ (h5 _ _ _))⟩
    · rfl
  · rfl

theorem for_loop_returns (env : Env S A R W K O C M E) (p : Args) (model : M)
    (henv : env.Returns) (hz : p.save = true → p.num_thin ≠ 0) :
    ∀ (k m : Nat) (w : World S A R W K O C), (for_loop env p model k m w).fault = none := by
  intro k
  induction k with
  | zero => intro m w; rfl
  | succ k ih =>
    intro m w
    rw [for_loop, Run.andThen_fault_eq_none]
    exact ⟨loop_body_returns env p model m w henv hz, ih _ _⟩

/-- When no collaborator throws and the remainder is defined whenever it is evaluated, the run
returns. -/
theorem run_markov_chain_returns (env : Env S A R W K O C M E) (p : Args) (model : M)
    (w : World S A R W K O C) (henv : env.Returns)
    (hz : p.save = true → 0 < p.num_iterations → p.num_thin ≠ 0) :
    (run_markov_chain env p model w).fault = none := by
  have hloop : ∀ w', (for_loop env p model p.num_iterations.toNat 0 w').fault = none := by
    intro w'
    by_cases hn : 0 < p.num_iterations
    · exact for_loop_returns env p model henv (fun hs => hz hs hn) _ _ _
    · have : p.num_iterations.toNat = 0 := by omega
      rw [this]; rfl
  obtain ⟨_, _, _, _, _, h6, h7, h8, h9, h10⟩ := henv
  unfold run_markov_chain
  rw [Run.andThen_fault_eq_none]
  constructor
  · unfold load_block
    split
    · rw [Run.andThen_fault_eq_none]
      exact ⟨invoke_fault_of_ok _ _ _ (map_ok _ (h6 _ _)),
        invoke_fault_of_ok _ _ _ (map_ok _ (h7 _ _))⟩
    · rfl
  · rw [Run.andThen_fault_eq_none]
    refine ⟨hloop _, ?_⟩
    unfold save_block
    split
    · rw [Run.andThen_fault_eq_none]
      refine ⟨invoke_fault_of_ok _ _ _ (map_ok _ (h8 _ _ _ _)), ?_⟩
      rw [Run.andThen_fault_eq_none]
      exact ⟨invoke_fault_of_ok _ _ _ (map_ok _ (h9 _ _)),
        invoke_fault_of_ok _ _ _ (map_ok _ (h10 _ _))⟩
    · rfl

end Totality

/-! ## Thinning arithmetic -/

theorem tmod_eq_zero_iff_dvd (i k : Nat) : (i : Int).tmod (k : Int) = 0 ↔ k ∣ i := by
  rw [← Int.ofNat_tmod]
  constructor
  · intro h; exact Nat.dvd_of_mod_eq_zero (by exact_mod_cast h)
  · intro h; exact_mod_cast Nat.mod_eq_zero_of_dvd h

theorem ceil_div_of_dvd (t k : Nat) (hk : 1 ≤ k) : (k * t + k - 1) / k = t := by
  apply Nat.div_eq_of_lt_le
  · have : t * k = k * t := Nat.mul_comm _ _
    omega
  · have : (t + 1) * k = k * t + k := by ring
    omega

theorem ceil_div_succ (n k : Nat) (hk : 1 ≤ k) :
    (n + 1 + k - 1) / k = (n + k - 1) / k + if k ∣ n then 1 else 0 := by
  by_cases h : k ∣ n
  · obtain ⟨t, rfl⟩ := h
    simp only [Nat.dvd_mul_right, if_true]
    have h1 : (k * t + 1 + k - 1) = k * (t + 1) := by
      have : k * (t + 1) = k * t + k := by ring
      omega
    rw [h1, ceil_div_of_dvd t k hk, Nat.mul_div_cancel_left _ (by omega : 0 < k)]
  · simp only [h, if_false, Nat.add_zero]
    have hr : 0 < n % k := Nat.pos_of_ne_zero (fun h0 => h (Nat.dvd_of_mod_eq_zero h0))
    have hlt : n % k < k := Nat.mod_lt _ (by omega)
    have hn := Nat.div_add_mod n k
    have hc : (n / k + 1) * k = k * (n / k) + k := by ring
    have hc1 : (n / k + 1 + 1) * k = k * (n / k) + k + k := by ring
    have e1 : (n + 1 + k - 1) / k = n / k + 1 := by
      apply Nat.div_eq_of_lt_le <;> omega
    have e2 : (n + k - 1) / k = n / k + 1 := by
      apply Nat.div_eq_of_lt_le <;> omega
    rw [e1, e2]

theorem filter_dvd_range (n k : Nat) (hk : 1 ≤ k) :
    (List.range n).filter (fun i => decide (k ∣ i)) =
      (List.range ((n + k - 1) / k)).map (fun i => i * k) := by
  induction n with
  | zero =>
    have : (0 + k - 1) / k = 0 := Nat.div_eq_of_lt (by omega)
    rw [this]; rfl
  | succ n ih =>
    rw [List.range_succ, List.filter_append, ih, ceil_div_succ n k hk]
    by_cases h : k ∣ n
    · obtain ⟨t, rfl⟩ := h
      simp [List.range_succ, ceil_div_of_dvd t k hk, Nat.mul_comm]
    · simp [h]

theorem ceil_div_eq (n k : Nat) (hk : 1 ≤ k) : ⌈(n : ℚ) / (k : ℚ)⌉₊ = (n + k - 1) / k := by
  have hk0 : (0 : ℚ) < k := by exact_mod_cast hk
  have hd := Nat.div_add_mod (n + k - 1) k
  have hm := Nat.mod_lt (n + k - 1) (by omega : 0 < k)
  apply le_antisymm
  · rw [Nat.ceil_le, div_le_iff₀ hk0]
    have : n ≤ (n + k - 1) / k * k := by
      have : (n + k - 1) / k * k = k * ((n + k - 1) / k) := Nat.mul_comm _ _
      omega
    exact_mod_cast this
  · have h1 : (n : ℚ) ≤ ⌈(n : ℚ) / (k : ℚ)⌉₊ * k := by
      rw [← div_le_iff₀ hk0]; exact Nat.le_ceil _
    have h2 : n ≤ ⌈(n : ℚ) / (k : ℚ)⌉₊ * k := by exact_mod_cast h1
    apply Nat.lt_succ_iff.mp
    rw [Nat.div_lt_iff_lt_mul (by omega : 0 < k)]
    have := Nat.succ_mul ⌈(n : ℚ) / (k : ℚ)⌉₊ k
    omega


section RecordedSamples
variable {S A R W K O C M E : Type}

theorem transitions_succ (env : Env S A R W K O C M E) (k : Nat) (x x' : A × R × S)
    (h : env.transition x.1 x.2.1 x.2.2 = .ok x') :
    transitions env (k + 1) x = transitions env k x' := by
  simp [transitions, h]

theorem transitions_succ_ok (env : Env S A R W K O C M E) (k : Nat) (x y : A × R × S)
    (h : transitions env (k + 1) x = .ok y) :
    ∃ x', env.transition x.1 x.2.1 x.2.2 = .ok x' ∧ transitions env k x' = .ok y := by
  cases hx : env.transition x.1 x.2.1 x.2.2 with
  | error e => simp [transitions, hx] at h
  | ok x' => exact ⟨x', rfl, by simpa [transitions, hx] using h⟩

theorem loop_calls_sampleIndex (env : Env S A R W K O C M E) (p : Args) (model : M)
    (hs : p.save = true) :
    ∀ (k m : Nat) (x y : A × R × S), transitions env k x = .ok y →
      (loop_calls env p model k m x).filterMap Call.sampleIndex =
        (List.range' m k).filter (fun i : Nat => decide ((i : Int).tmod p.num_thin = 0)) := by
  intro k
  induction k with
  | zero => intro m x y _; simp [loop_calls]
  | succ k ih =>
    intro m x y h
    obtain ⟨x', hx, hy⟩ := transitions_succ_ok env k x y h
    simp only [loop_calls, hx, List.filterMap_append, ih (m + 1) x' y hy, List.range'_succ,
      List.filter_cons]
    by_cases ht : (m : Int).tmod p.num_thin = 0
    · simp [iteration_calls, hs, ht, Call.sampleIndex]
    · simp [iteration_calls, hs, ht, Call.sampleIndex]

theorem loop_calls_diagnosticIndex (env : Env S A R W K O C M E) (p : Args) (model : M)
    (hs : p.save = true) :
    ∀ (k m : Nat) (x y : A × R × S), transitions env k x = .ok y →
      (loop_calls env p model k m x).filterMap Call.diagnosticIndex =
        (List.range' m k).filter (fun i : Nat => decide ((i : Int).tmod p.num_thin = 0)) := by
  intro k
  induction k with
  | zero => intro m x y _; simp [loop_calls]
  | succ k ih =>
    intro m x y h
    obtain ⟨x', hx, hy⟩ := transitions_succ_ok env k x y h
    simp only [loop_calls, hx, List.filterMap_append, ih (m + 1) x' y hy, List.range'_succ,
      List.filter_cons]
    by_cases ht : (m : Int).tmod p.num_thin = 0
    · simp [iteration_calls, hs, ht, Call.diagnosticIndex]
    · simp [iteration_calls, hs, ht, Call.diagnosticIndex]

theorem load_calls_filterMap_none (p : Args) (w : World S A R W K O C) (g : Call S A R M → Option Nat)
    (hg : ∀ c : Call S A R M, c.isLoad = true → g c = none) :
    (load_calls p w : List (Call S A R M)).filterMap g = [] := by
  unfold load_calls
  split
  · rfl
  · simp [hg _ (rfl : (Call.load_sampler_specific w.sampler : Call S A R M).isLoad = true),
      hg _ (rfl : (Call.load_rng w.base_rng : Call S A R M).isLoad = true)]

theorem save_calls_filterMap_none (p : Args) (model : M) (w : World S A R W K O C)
    (g : Call S A R M → Option Nat)
    (hg : ∀ c : Call S A R M, c.isSave = true → g c = none) :
    (save_calls p model w).filterMap g = [] := by
  unfold save_calls
  split
  · rfl
  · simp [hg _ (rfl : (Call.save_inits model w.base_rng w.init_s).isSave = true),
      hg _ (rfl : (Call.save_sampler_specific w.sampler : Call S A R M).isSave = true),
      hg _ (rfl : (Call.save_rng w.base_rng : Call S A R M).isSave = true)]

theorem thinned_indices (n k : Nat) (hk : 1 ≤ k) :
    (List.range' 0 n).filter (fun i : Nat => decide ((i : Int).tmod (k : Int) = 0)) =
      (List.range ⌈(n : ℚ) / (k : ℚ)⌉₊).map (fun i => i * k) := by
  rw [ceil_div_eq n k hk, ← filter_dvd_range n k hk, ← List.range_eq_range']
  congr 1
  funext i
  simp [tmod_eq_zero_iff_dvd]

/-- C1. With `save = true`, `num_iterations = n ≥ 0` and `num_thin = k ≥ 1`, a run in which no
collaborator throws makes exactly `⌈n / k⌉` calls of `write_sample_params` and as many of
`write_diagnostic_params`, at the loop indices `0, k, 2k, …` below `n`, in this order. -/
theorem C1_recorded_samples (env : Env S A R W K O C M E) (p : Args) (model : M)
    (w : World S A R W K O C) (n k : Nat) (hn : p.num_iterations = n) (hk : p.num_thin = k)
    (hk1 : 1 ≤ k) (hs : p.save = true)
    (hdone : (run_markov_chain env p model w).fault = none) :
    (run_markov_chain env p model w).calls.filterMap Call.sampleIndex =
        (List.range ⌈(n : ℚ) / (k : ℚ)⌉₊).map (fun i => i * k) ∧
      (run_markov_chain env p model w).calls.filterMap Call.diagnosticIndex =
        (List.range ⌈(n : ℚ) / (k : ℚ)⌉₊).map (fun i => i * k) ∧
      ((run_markov_chain env p model w).calls.filterMap Call.sampleIndex).length =
        ⌈(n : ℚ) / (k : ℚ)⌉₊ ∧
      ((run_markov_chain env p model w).calls.filterMap Call.diagnosticIndex).length =
        ⌈(n : ℚ) / (k : ℚ)⌉₊ := by
  obtain ⟨_, ht, hc⟩ := run_markov_chain_done env p model w hdone
  have hN : p.num_iterations.toNat = n := by rw [hn]; rfl
  rw [hN] at ht hc
  have h1 : (run_markov_chain env p model w).calls.filterMap Call.sampleIndex =
      (List.range ⌈(n : ℚ) / (k : ℚ)⌉₊).map (fun i => i * k) := by
    rw [hc, List.filterMap_append, List.filterMap_append,
      load_calls_filterMap_none p w _ (by intro c h; cases c <;> simp_all [Call.isLoad, Call.sampleIndex]),
      save_calls_filterMap_none p model _ _ (by intro c h; cases c <;> simp_all [Call.isSave, Call.sampleIndex]),
      loop_calls_sampleIndex env p model hs _ _ _ _ ht, hk, thinned_indices n k hk1]
    simp
  have h2 : (run_markov_chain env p model w).calls.filterMap Call.diagnosticIndex =
      (List.range ⌈(n : ℚ) / (k : ℚ)⌉₊).map (fun i => i * k) := by
    rw [hc, List.filterMap_append, List.filterMap_append,
      load_calls_filterMap_none p w _ (by intro c h; cases c <;> simp_all [Call.isLoad, Call.diagnosticIndex]),
      save_calls_filterMap_none p model _ _ (by intro c h; cases c <;> simp_all [Call.isSave, Call.diagnosticIndex]),
      loop_calls_diagnosticIndex env p model hs _ _ _ _ ht, hk, thinned_indices n k hk1]
    simp
  refine ⟨h1, h2, ?_, ?_⟩
  · rw [h1]; simp
  · rw [h2]; simp

theorem C1_recorded_samples_witness :
    (run_markov_chain demoEnv (demoArgs 5 2 true false) () (demoWorld 9)).calls.filterMap
        Call.sampleIndex = [0, 2, 4] ∧
      (⌈((5 : Nat) : ℚ) / ((2 : Nat) : ℚ)⌉₊ = 3) := by
  have h := C1_recorded_samples demoEnv (demoArgs 5 2 true false) () (demoWorld 9) 5 2 rfl rfl
    (by decide) rfl (by decide)
  have hc : ⌈((5 : Nat) : ℚ) / ((2 : Nat) : ℚ)⌉₊ = 3 := by
    rw [ceil_div_eq 5 2 (by decide)]
  refine ⟨?_, hc⟩
  rw [h.1, hc]; decide

end RecordedSamples

section ChainAndWriter
variable {S A R W K O C M E : Type}

theorem transitions_ok_of_le (env : Env S A R W K O C M E) :
    ∀ (k : Nat) (x y : A × R × S), transitions env k x = .ok y →
      ∀ i, i ≤ k → ∃ xi, transitions env i x = .ok xi := by
  intro k
  induction k with
  | zero => intro x y h i hi; exact ⟨x, by have : i = 0 := by omega
                                           subst this; rfl⟩
  | succ k ih =>
    intro x y h i hi
    obtain ⟨x', hx, hy⟩ := transitions_succ_ok env k x y h
    cases i with
    | zero => exact ⟨x, rfl⟩
    | succ i =>
      obtain ⟨xi, hxi⟩ := ih x' y hy i (by omega)
      exact ⟨xi, by rw [transitions_succ env i x x' hx]; exact hxi⟩

theorem iteration_calls_iter (p : Args) (model : M) (m : Nat) (s : S) (x' : A × R × S)
    {c : Call S A R M} (h : c ∈ iteration_calls p model m s x') : c.iter = some m := by
  unfold iteration_calls at h
  split at h
  · simp only [List.cons_append, List.nil_append, List.mem_cons, List.mem_singleton,
      List.not_mem_nil, or_false] at h
    rcases h with h | h | h | h | h <;> subst h <;> rfl
  · simp only [List.append_nil, List.mem_cons, List.mem_singleton, List.not_mem_nil,
      or_false] at h
    rcases h with h | h | h <;> subst h <;> rfl

theorem loop_calls_iter (env : Env S A R W K O C M E) (p : Args) (model : M) :
    ∀ (k m : Nat) (x : A × R × S) {c : Call S A R M}, c ∈ loop_calls env p model k m x →
      ∃ i, m ≤ i ∧ i < m + k ∧ c.iter = some i := by
  intro k
  induction k with
  | zero => intro m x c h; simp [loop_calls] at h
  | succ k ih =>
    intro m x c h
    unfold loop_calls at h
    split at h
    · rcases List.mem_append.mp h with h | h
      · exact ⟨m, le_refl m, by omega, iteration_calls_iter p model m _ _ h⟩
      · obtain ⟨i, h1, h2, h3⟩ := ih (m + 1) _ h
        exact ⟨i, by omega, by omega, h3⟩
    · simp at h

theorem iteration_calls_transition (p : Args) (model : M) (m : Nat) (s : S) (x' : A × R × S) :
    (iteration_calls p model m s x').filter Call.isTransition = [.transition m s] := by
  unfold iteration_calls
  split <;> simp [Call.isTransition]

theorem loop_calls_transition (env : Env S A R W K O C M E) (p : Args) (model : M) :
    ∀ (k m : Nat) (x y : A × R × S), transitions env k x = .ok y →
      ((loop_calls env p model k m x).filter Call.isTransition).length = k ∧
      ∀ i, i < k → ∃ xi, transitions env i x = .ok xi ∧
        ((loop_calls env p model k m x).filter Call.isTransition)[i]? =
          some (.transition (m + i) xi.2.2) := by
  intro k
  induction k with
  | zero => intro m x y _; simp [loop_calls]
  | succ k ih =>
    intro m x y h
    obtain ⟨x', hx, hy⟩ := transitions_succ_ok env k x y h
    obtain ⟨hlen, hidx⟩ := ih (m + 1) x' y hy
    simp only [loop_calls, hx, List.filter_append, iteration_calls_transition,
      List.singleton_append, List.length_cons, hlen, true_and]
    intro i hi
    cases i with
    | zero => exact ⟨x, rfl, by simp⟩
    | succ i =>
      obtain ⟨xi, hxi, hget⟩ := hidx i (by omega)
      refine ⟨xi, by rw [transitions_succ env i x x' hx]; exact hxi, ?_⟩
      rw [List.getElem?_cons_succ, hget]
      congr 2
      omega

theorem load_calls_filter_nil (p : Args) (w : World S A R W K O C) (g : Call S A R M → Bool)
    (hg : ∀ c : Call S A R M, c.isLoad = true → g c = false) :
    (load_calls p w : List (Call S A R M)).filter g = [] := by
  unfold load_calls
  split
  · rfl
  · simp [hg _ (rfl : (Call.load_sampler_specific w.sampler : Call S A R M).isLoad = true),
      hg _ (rfl : (Call.load_rng w.base_rng : Call S A R M).isLoad = true)]

theorem save_calls_filter_nil (p : Args) (model : M) (w : World S A R W K O C)
    (g : Call S A R M → Bool)
    (hg : ∀ c : Call S A R M, c.isSave = true → g c = false) :
    (save_calls p model w).filter g = [] := by
  unfold save_calls
  split
  · rfl
  · simp [hg _ (rfl : (Call.save_inits model w.base_rng w.init_s).isSave = true),
      hg _ (rfl : (Call.save_sampler_specific w.sampler : Call S A R M).isSave = true),
      hg _ (rfl : (Call.save_rng w.base_rng : Call S A R M).isSave = true)]

/-- C3. In a run that completes, the sampler, generator and chain state left by the call are
those of `num_iterations` consecutive transitions from the state the loop was entered in, whose
chain state is the caller's `init_s`; the run makes exactly that many `transition` calls, and the
`i`-th of them receives the chain state returned by the `i` transitions before it. -/
theorem C3_final_chain_state (env : Env S A R W K O C M E) (p : Args) (model : M)
    (w : World S A R W K O C) (hdone : (run_markov_chain env p model w).fault = none) :
    (load_block env p w : Run E _ (Call S A R M)).state.init_s = w.init_s ∧
      transitions env p.num_iterations.toNat
          (load_block env p w : Run E _ (Call S A R M)).state.chain =
        .ok (run_markov_chain env p model w).state.chain ∧
      ((run_markov_chain env p model w).calls.filter Call.isTransition).length =
        p.num_iterations.toNat ∧
      ∀ i, i < p.num_iterations.toNat →
        ∃ x, transitions env i (load_block env p w : Run E _ (Call S A R M)).state.chain = .ok x ∧
          ((run_markov_chain env p model w).calls.filter Call.isTransition)[i]? =
            some (.transition i x.2.2) := by
  obtain ⟨h0, ht, hc⟩ := run_markov_chain_done env p model w hdone
  obtain ⟨_, hi, _⟩ := load_block_done env p w h0
  obtain ⟨hlen, hidx⟩ := loop_calls_transition env p model _ 0 _ _ ht
  have hf : (run_markov_chain env p model w).calls.filter Call.isTransition =
      (loop_calls env p model p.num_iterations.toNat 0
        (load_block env p w : Run E _ (Call S A R M)).state.chain).filter Call.isTransition := by
    rw [hc, List.filter_append, List.filter_append,
      load_calls_filter_nil p w _ (by intro c h; cases c <;> simp_all [Call.isLoad, Call.isTransition]),
      save_calls_filter_nil p model _ _
        (by intro c h; cases c <;> simp_all [Call.isSave, Call.isTransition])]
    simp
  refine ⟨hi, ht, by rw [hf, hlen], ?_⟩
  intro i hi
  obtain ⟨x, hx, hget⟩ := hidx i hi
  exact ⟨x, hx, by rw [hf, hget, Nat.zero_add]⟩

theorem C3_final_chain_state_witness :
    (run_markov_chain demoEnv (demoArgs 3 2 true true) () (demoWorld 9)).state.chain = (3, 3, 12) ∧
      transitions demoEnv 3 (0, 0, 1) = .ok (3, 3, 12) := by
  have h := C3_final_chain_state demoEnv (demoArgs 3 2 true true) () (demoWorld 9) (by decide)
  have h2 := h.2.1
  refine ⟨by decide, ?_⟩
  exact h2.trans (congrArg Except.ok (by decide))


theorem iteration_calls_writer (p : Args) (model : M) (m : Nat) (s : S) (x' : A × R × S) :
    (iteration_calls p model m s x').filter (fun c => c.isWriter && c.iter == some m) =
      if p.save = true ∧ (m : Int).tmod p.num_thin = 0 then
        [.write_sample_params m x'.2.1 x'.2.2 x'.1 model, .write_diagnostic_params m x'.2.2 x'.1]
      else [] := by
  unfold iteration_calls
  split <;> simp [Call.isWriter, Call.iter]

theorem filter_eq_nil_of_iter_ne (l : List (Call S A R M)) (m : Nat)
    (h : ∀ c ∈ l, c.iter ≠ some m) :
    l.filter (fun c => c.isWriter && c.iter == some m) = [] := by
  rw [List.filter_eq_nil_iff]
  intro c hc
  simp [h c hc]

theorem loop_calls_writer (env : Env S A R W K O C M E) (p : Args) (model : M) :
    ∀ (k m : Nat) (x y : A × R × S), transitions env k x = .ok y →
      ∀ i, i < k → ∃ x', transitions env (i + 1) x = .ok x' ∧
        (loop_calls env p model k m x).filter (fun c => c.isWriter && c.iter == some (m + i)) =
          if p.save = true ∧ ((m + i : Nat) : Int).tmod p.num_thin = 0 then
            [.write_sample_params (m + i) x'.2.1 x'.2.2 x'.1 model,
              .write_diagnostic_params (m + i) x'.2.2 x'.1]
          else [] := by
  intro k
  induction k with
  | zero => intro m x y _ i hi; omega
  | succ k ih =>
    intro m x y h i hi
    obtain ⟨x', hx, hy⟩ := transitions_succ_ok env k x y h
    simp only [loop_calls, hx, List.filter_append]
    cases i with
    | zero =>
      refine ⟨x', by simp [transitions, hx], ?_⟩
      rw [Nat.add_zero, iteration_calls_writer, filter_eq_nil_of_iter_ne, List.append_nil]
      intro c hc
      obtain ⟨j, h1, _, h3⟩ := loop_calls_iter env p model k (m + 1) x' hc
      rw [h3]; simp; omega
    | succ i =>
      obtain ⟨x'', hx'', hw⟩ := ih (m + 1) x' y hy i (by omega)
      refine ⟨x'', by rw [transitions_succ env (i + 1) x x' hx]; exact hx'', ?_⟩
      have hm : m + (i + 1) = m + 1 + i := by omega
      rw [hm, hw, filter_eq_nil_of_iter_ne, List.nil_append]
      intro c hc
      rw [iteration_calls_iter p model m _ _ hc]; simp; omega

/-- C4. In a run that completes, the writer calls made at loop index `m` are
`write_sample_params` followed by `write_diagnostic_params`, both on the state returned by the
transition of that iteration (the state after `m + 1` transitions), when `save` holds and
`m % num_thin == 0`, and none otherwise; every writer call belongs to an iteration; with
`save = false` there is no writer call. -/
theorem C4_writer_calls (env : Env S A R W K O C M E) (p : Args) (model : M)
    (w : World S A R W K O C) (hdone : (run_markov_chain env p model w).fault = none) :
    (∀ c ∈ (run_markov_chain env p model w).calls, c.isWriter = true →
        ∃ m, m < p.num_iterations.toNat ∧ c.iter = some m) ∧
      (∀ m, m < p.num_iterations.toNat →
        ∃ x', transitions env (m + 1) (load_block env p w : Run E _ (Call S A R M)).state.chain
            = .ok x' ∧
          (run_markov_chain env p model w).calls.filter
              (fun c => c.isWriter && c.iter == some m) =
            if p.save = true ∧ (m : Int).tmod p.num_thin = 0 then
              [.write_sample_params m x'.2.1 x'.2.2 x'.1 model,
                .write_diagnostic_params m x'.2.2 x'.1]
            else []) ∧
      (p.save = false → ∀ c ∈ (run_markov_chain env p model w).calls, c.isWriter = false) := by
  obtain ⟨h0, ht, hc⟩ := run_markov_chain_done env p model w hdone
  have hmem : ∀ c ∈ (run_markov_chain env p model w).calls, c.isWriter = true →
      c ∈ loop_calls env p model p.num_iterations.toNat 0
        (load_block env p w : Run E _ (Call S A R M)).state.chain := by
    intro c hcm hw
    rw [hc, List.mem_append, List.mem_append] at hcm
    rcases hcm with (hcm | hcm) | hcm
    · exfalso
      unfold load_calls at hcm
      split at hcm <;> simp at hcm
      rcases hcm with rfl | rfl <;> simp [Call.isWriter] at hw
    · exact hcm
    · exfalso
      unfold save_calls at hcm
      split at hcm <;> simp at hcm
      rcases hcm with rfl | rfl | rfl <;> simp [Call.isWriter] at hw
  have hat : ∀ m, m < p.num_iterations.toNat →
      ∃ x', transitions env (m + 1) (load_block env p w : Run E _ (Call S A R M)).state.chain
          = .ok x' ∧
        (run_markov_chain env p model w).calls.filter
            (fun c => c.isWriter && c.iter == some m) =
          if p.save = true ∧ (m : Int).tmod p.num_thin = 0 then
            [.write_sample_params m x'.2.1 x'.2.2 x'.1 model,
              .write_diagnostic_params m x'.2.2 x'.1]
          else [] := by
    intro m hm
    obtain ⟨x', hx', hw⟩ := loop_calls_writer env p model _ 0 _ _ ht m hm
    refine ⟨x', hx', ?_⟩
    rw [Nat.zero_add] at hw
    rw [hc, List.filter_append, List.filter_append, hw,
      load_calls_filter_nil p w _ (by intro c h; cases c <;> simp_all [Call.isLoad, Call.isWriter]),
      save_calls_filter_nil p model _ _
        (by intro c h; cases c <;> simp_all [Call.isSave, Call.isWriter])]
    simp
  refine ⟨?_, hat, ?_⟩
  · intro c hcm hw
    obtain ⟨i, _, h2, h3⟩ := loop_calls_iter env p model _ 0 _ (hmem c hcm hw)
    exact ⟨i, by omega, h3⟩
  · intro hs c hcm
    by_contra hw
    have hw' : c.isWriter = true := by simpa using hw
    obtain ⟨i, _, h2, h3⟩ := loop_calls_iter env p model _ 0 _ (hmem c hcm hw')
    obtain ⟨x', _, hf⟩ := hat i (by omega)
    have : c ∈ (run_markov_chain env p model w).calls.filter
        (fun c => c.isWriter && c.iter == some i) := by
      rw [List.mem_filter]; exact ⟨hcm, by simp [hw', h3]⟩
    rw [hf] at this
    simp [hs] at this

theorem C4_writer_calls_witness :
    (run_markov_chain demoEnv (demoArgs 3 2 true false) () (demoWorld 9)).calls.filter
        (fun c => c.isWriter && c.iter == some 2) =
      [.write_sample_params 2 12 75 10 (), .write_diagnostic_params 2 75 10] ∧
    transitions demoEnv 3 (7, 9, 1) = .ok (10, 12, 75) := by
  obtain ⟨x', hx', hf⟩ :=
    (C4_writer_calls demoEnv (demoArgs 3 2 true false) () (demoWorld 9) (by decide)).2.1 2
      (by decide)
  have hx : transitions demoEnv 3 (7, 9, 1) = .ok (10, 12, 75) := by
    simp [transitions, demoEnv]
  have : x' = (10, 12, 75) := by
    have h := hx'.symm.trans hx
    exact Except.ok.inj h
  subst this
  exact ⟨hf.trans (by decide), hx⟩

end ChainAndWriter

section Checkpoints
variable {S A R W K O C M E : Type}

theorem run_markov_chain_mem (env : Env S A R W K O C M E) (p : Args) (model : M)
    (w : World S A R W K O C) {c : Call S A R M}
    (h : c ∈ (run_markov_chain env p model w).calls) :
    (c.isLoad = true ∧ p.warmup = false) ∨
      (∃ i, i < p.num_iterations.toNat ∧ c.iter = some i ∧
        (c.isWriter = true → p.save = true ∧ p.num_thin ≠ 0 ∧ (i : Int).tmod p.num_thin = 0)) ∨
      (c.isSave = true ∧ p.warmup = false) := by
  unfold run_markov_chain at h
  rcases Run.mem_andThen h with h | h
  · exact Or.inl (load_block_mem env p w h)
  · rcases Run.mem_andThen h with h | h
    · obtain ⟨i, _, h2, h3⟩ := for_loop_mem env p model _ 0 _ h
      exact Or.inr (Or.inl ⟨i, by omega, h3⟩)
    · exact Or.inr (Or.inr (save_block_mem env p model _ h))

theorem load_block_calls_of_ok (env : Env S A R W K O C M E) (p : Args)
    (w : World S A R W K O C) (hw : p.warmup = false) (ka : K × A)
    (h : env.load_sampler_specific w.resume_recorder w.sampler = .ok ka) :
    (load_block env p w : Run E _ (Call S A R M)).calls =
      [.load_sampler_specific w.sampler, .load_rng w.base_rng] := by
  unfold load_block call_load_sampler_specific call_load_rng
  cases h2 : env.load_rng ka.1 w.base_rng with
  | error e => simp [Run.andThen, invoke, Except.map, h, h2, hw]
  | ok kr => simp [Run.andThen, invoke, Except.map, h, h2, hw]

theorem save_block_prefix (env : Env S A R W K O C M E) (p : Args) (model : M)
    (w : World S A R W K O C) :
    (save_block env p model w).calls <+: save_calls p model (save_block env p model w).state := by
  unfold save_block save_calls call_save_inits call_save_sampler_specific call_save_rng
  cases hw : p.warmup with
  | true => simp [Run.skip]
  | false =>
    cases h1 : env.save_inits w.resume_recorder model w.base_rng w.init_s with
    | error e =>
      simp only [Run.andThen, invoke, Except.map, Bool.not_false, if_true]
      exact ⟨[_, _], rfl⟩
    | ok k1 =>
      cases h2 : env.save_sampler_specific k1 w.sampler with
      | error e =>
        simp only [Run.andThen, invoke, Except.map, Bool.not_false, if_true, h2]
        exact ⟨[_], rfl⟩
      | ok k2 =>
        cases h3 : env.save_rng k2 w.base_rng with
        | error e =>
          simp only [Run.andThen, invoke, Except.map, Bool.not_false, if_true, h2, h3]
          exact ⟨[], rfl⟩
        | ok k3 =>
          simp only [Run.andThen, invoke, Except.map, Bool.not_false, if_true, h2, h3]
          exact ⟨[], rfl⟩

/-- The log of any run, returning or not, splits into the calls made up to the end of the loop and
the calls of the save block. -/
theorem run_markov_chain_split (env : Env S A R W K O C M E) (p : Args) (model : M)
    (w : World S A R W K O C) :
    ∃ pre post, (run_markov_chain env p model w).calls = pre ++ post ∧
      (∀ c ∈ pre, c.isSave = false) ∧
      post <+: save_calls p model (run_markov_chain env p model w).state ∧
      ((run_markov_chain env p model w).fault = none →
        post = save_calls p model (run_markov_chain env p model w).state) := by
  have hpre : ∀ c ∈ (load_block env p w : Run E _ (Call S A R M)).calls, c.isSave = false :=
    fun c hc => Call.not_save_of_load (load_block_mem env p w hc).1
  cases h0 : (load_block env p w : Run E _ (Call S A R M)).fault with
  | some f =>
    refine ⟨(load_block env p w).calls, [], ?_, hpre, List.nil_prefix, ?_⟩
    · rw [run_markov_chain, Run.andThen_of_fault h0]; simp
    · rw [run_markov_chain, Run.andThen_of_fault h0, h0]; simp
  | none =>
    have hmid : ∀ c ∈ (for_loop env p model p.num_iterations.toNat 0
        (load_block env p w).state).calls, c.isSave = false := by
      intro c hc
      obtain ⟨i, _, _, h3, _⟩ := for_loop_mem env p model _ 0 _ hc
      exact Call.not_save_of_iter h3
    cases h1 : (for_loop env p model p.num_iterations.toNat 0
        (load_block env p w).state).fault with
    | some f =>
      refine ⟨(load_block env p w).calls ++ (for_loop env p model p.num_iterations.toNat 0
        (load_block env p w).state).calls, [], ?_, ?_, List.nil_prefix, ?_⟩
      · rw [run_markov_chain, Run.andThen_calls h0, Run.andThen_of_fault h1]; simp
      · intro c hc
        rcases List.mem_append.mp hc with hc | hc
        · exact hpre c hc
        · exact hmid c hc
      · rw [run_markov_chain, Run.andThen_fault h0, Run.andThen_of_fault h1, h1]; simp
    | none =>
      have hs : (run_markov_chain env p model w).state =
          (save_block env p model (for_loop env p model p.num_iterations.toNat 0
            (load_block env p w).state).state).state := by
        rw [run_markov_chain, Run.andThen_state h0, Run.andThen_state h1]
      refine ⟨(load_block env p w).calls ++ (for_loop env p model p.num_iterations.toNat 0
        (load_block env p w).state).calls, (save_block env p model (for_loop env p model
          p.num_iterations.toNat 0 (load_block env p w).state).state).calls, ?_, ?_, ?_, ?_⟩
      · rw [run_markov_chain, Run.andThen_calls h0, Run.andThen_calls h1, List.append_assoc]
      · intro c hc
        rcases List.mem_append.mp hc with hc | hc
        · exact hpre c hc
        · exact hmid c hc
      · rw [hs]; exact save_block_prefix env p model _
      · intro hf
        rw [run_markov_chain, Run.andThen_fault h0, Run.andThen_fault h1] at hf
        obtain ⟨hc, hch, _⟩ := save_block_done env p model _ hf
        rw [hs, hc, save_calls_congr p model hch]

/-- C5. A run with `warmup = true` makes no `load_` call.  A run with `warmup = false` whose
`load_sampler_specific` returns starts with `load_sampler_specific` then `load_rng`, before any
other call (the callback, progress report and transition of iteration 0 included), and makes no
further `load_` call, whatever `num_iterations` is. -/
theorem C5_checkpoint_loads (env : Env S A R W K O C M E) (p : Args) (model : M)
    (w : World S A R W K O C) :
    (p.warmup = true → ∀ c ∈ (run_markov_chain env p model w).calls, c.isLoad = false) ∧
      (p.warmup = false →
        (∃ ka, env.load_sampler_specific w.resume_recorder w.sampler = .ok ka) →
        ∃ rest, (run_markov_chain env p model w).calls =
            .load_sampler_specific w.sampler :: .load_rng w.base_rng :: rest ∧
          ∀ c ∈ rest, c.isLoad = false) := by
  constructor
  · intro hw c hc
    rcases run_markov_chain_mem env p model w hc with h | ⟨i, _, h, _⟩ | h
    · rw [hw] at h; exact absurd h.2 (by simp)
    · exact Call.not_load_of_iter h
    · rw [hw] at h; exact absurd h.2 (by simp)
  · rintro hw ⟨ka, hka⟩
    have hl := load_block_calls_of_ok (M := M) env p w hw ka hka
    cases h0 : (load_block env p w : Run E _ (Call S A R M)).fault with
    | some f =>
      refine ⟨[], ?_, by simp⟩
      rw [run_markov_chain, Run.andThen_of_fault h0, hl]
    | none =>
      refine ⟨((for_loop env p model p.num_iterations.toNat 0 (load_block env p w).state).andThen
        fun w => save_block env p model w).calls, ?_, ?_⟩
      · rw [run_markov_chain, Run.andThen_calls h0, hl]; rfl
      · intro c hc
        rcases Run.mem_andThen hc with hc | hc
        · obtain ⟨i, _, _, h3, _⟩ := for_loop_mem env p model _ 0 _ hc
          exact Call.not_load_of_iter h3
        · have := (save_block_mem env p model _ hc).1
          cases c <;> simp_all [Call.isSave, Call.isLoad]

theorem C5_checkpoint_loads_witness :
    (run_markov_chain demoEnv (demoArgs 0 1 true false) () (demoWorld 9)).calls.filter Call.isLoad =
      [.load_sampler_specific 0, .load_rng 0] ∧
    (run_markov_chain demoEnv (demoArgs 0 1 true false) () (demoWorld 9)).calls.take 2 =
      [.load_sampler_specific 0, .load_rng 0] := by
  obtain ⟨rest, h, hr⟩ :=
    (C5_checkpoint_loads demoEnv (demoArgs 0 1 true false) () (demoWorld 9)).2 rfl ⟨_, rfl⟩
  rw [h]
  refine ⟨?_, rfl⟩
  have : rest.filter Call.isLoad = [] := by
    rw [List.filter_eq_nil_iff]; intro c hc; simp [hr c hc]
  simp [List.filter_cons, Call.isLoad, this, demoWorld]

/-- C6. In every run the `save_` calls come after all other calls: the log is `pre ++ post` with
no save in `pre` and only saves in `post`.  With `warmup = true` there is none.  With
`warmup = false` they are an initial part of `save_inits(model, base_rng, init_s)`,
`save_sampler_specific`, `save_rng`, and all three, once each and in this order, when the run
returns; `save_inits` receives the chain state the call leaves in `init_s`. -/
theorem C6_checkpoint_saves (env : Env S A R W K O C M E) (p : Args) (model : M)
    (w : World S A R W K O C) :
    ∃ pre post, (run_markov_chain env p model w).calls = pre ++ post ∧
      (∀ c ∈ pre, c.isSave = false) ∧ (∀ c ∈ post, c.isSave = true) ∧
      (p.warmup = true → post = []) ∧
      (p.warmup = false →
        post <+: [.save_inits model (run_markov_chain env p model w).state.base_rng
            (run_markov_chain env p model w).state.init_s,
          .save_sampler_specific (run_markov_chain env p model w).state.sampler,
          .save_rng (run_markov_chain env p model w).state.base_rng] ∧
        ((run_markov_chain env p model w).fault = none →
          post = [.save_inits model (run_markov_chain env p model w).state.base_rng
              (run_markov_chain env p model w).state.init_s,
            .save_sampler_specific (run_markov_chain env p model w).state.sampler,
            .save_rng (run_markov_chain env p model w).state.base_rng])) := by
  obtain ⟨pre, post, h1, h2, h3, h4⟩ := run_markov_chain_split env p model w
  refine ⟨pre, post, h1, h2, ?_, ?_, ?_⟩
  · intro c hc
    have := h3.subset hc
    unfold save_calls at this
    split at this
    · simp at this
    · simp only [List.mem_cons, List.mem_singleton, List.not_mem_nil, or_false] at this
      rcases this with rfl | rfl | rfl <;> rfl
  · intro hw
    simpa [save_calls, hw] using h3
  · intro hw
    simp only [save_calls, hw] at h3 h4
    exact ⟨h3, h4⟩

theorem C6_checkpoint_saves_witness :
    ∃ pre, (run_markov_chain demoEnv (demoArgs 3 2 true false) () (demoWorld 9)).calls =
        pre ++ [.save_inits () 12 75, .save_sampler_specific 10, .save_rng 12] ∧
      ∀ c ∈ pre, c.isSave = false := by
  obtain ⟨pre, post, h1, h2, _, _, h5⟩ :=
    C6_checkpoint_saves demoEnv (demoArgs 3 2 true false) () (demoWorld 9)
  have h6 := (h5 rfl).2 (by decide)
  refine ⟨pre, ?_, h2⟩
  rw [h1, h6]
  rfl

/-- The writer is called only when `save` holds: in every run with `save = false` no call of the
log is a writer call. -/
theorem no_writer_without_save (env : Env S A R W K O C M E) (p : Args) (model : M)
    (w : World S A R W K O C) (hs : p.save = false) :
    ∀ c ∈ (run_markov_chain env p model w).calls, c.isWriter = false := by
  intro c hc
  rcases run_markov_chain_mem env p model w hc with h | ⟨i, _, _, h⟩ | h
  · exact Call.not_writer_of_load h.1
  · by_contra hw
    have := (h (by simpa using hw)).1
    rw [hs] at this
    exact absurd this (by simp)
  · exact Call.not_writer_of_save h.1

/-- C9, as the code has it. Whether draws are written is decided by `save` alone, for warmup and
sampling runs alike: in every run with `save = false`, whatever `warmup`, `num_iterations` and
`num_thin` are, the writer receives no `write_sample_params` and no `write_diagnostic_params`
call. -/
theorem C9_writer_silent_without_save (env : Env S A R W K O C M E) (p : Args) (model : M)
    (w : World S A R W K O C) (hs : p.save = false) :
    ∀ c ∈ (run_markov_chain env p model w).calls, c.isWriter = false :=
  no_writer_without_save env p model w hs

theorem C9_writer_silent_without_save_witness :
    (demoArgs 3 1 false true).warmup = true ∧
      (run_markov_chain demoEnv (demoArgs 3 1 false true) () (demoWorld 9)).calls.filter
        Call.isWriter = [] := by
  refine ⟨rfl, ?_⟩
  rw [List.filter_eq_nil_iff]
  intro c hc
  simp [C9_writer_silent_without_save demoEnv (demoArgs 3 1 false true) () (demoWorld 9) rfl c hc]

/-- C9 as stated fails: a warmup run with `save = true` hands its first draw to the writer. -/
theorem C9_counterexample :
    (demoArgs 1 1 true true).warmup = true ∧
      (run_markov_chain demoEnv (demoArgs 1 1 true true) () (demoWorld 9)).fault = none ∧
      (run_markov_chain demoEnv (demoArgs 1 1 true true) () (demoWorld 9)).calls =
        [.callback 0, .print_progress 0, .transition 0 1,
          .write_sample_params 0 1 2 1 (), .write_diagnostic_params 0 2 1] := by
  decide

end Checkpoints

section Failures
variable {S A R W K O C M E : Type}

theorem writer_after_append (env : Env S A R W K O C M E) :
    ∀ (a b : List (Call S A R M)) (wr : W),
      writer_after env (a ++ b) wr = (writer_after env a wr).bind (writer_after env b) := by
  intro a
  induction a with
  | nil => intro b wr; rfl
  | cons c a ih =>
    intro b wr
    cases c with
    | write_sample_params m r s sa model =>
      simp only [List.cons_append, writer_after]
      cases env.write_sample_params wr r s sa model with
      | ok wr' => exact ih b wr'
      | error e => rfl
    | write_diagnostic_params m s sa =>
      simp only [List.cons_append, writer_after]
      cases env.write_diagnostic_params wr s sa with
      | ok wr' => exact ih b wr'
      | error e => rfl
    | _ => simp only [List.cons_append, writer_after]; exact ih b wr

theorem Propagates.skip (env : Env S A R W K O C M E) (p : Args) (w : World S A R W K O C) :
    Propagates (M := M) env p w (Run.skip w) := by
  constructor
  · intro e h; simp [Run.skip] at h
  · intro _; rfl

theorem Propagates.andThen (env : Env S A R W K O C M E) (p : Args) (w : World S A R W K O C)
    (r : Run E (World S A R W K O C) (Call S A R M))
    (f : World S A R W K O C → Run E (World S A R W K O C) (Call S A R M))
    (hr : Propagates env p w r) (hf : r.fault = none → Propagates env p r.state (f r.state)) :
    Propagates env p w (r.andThen f) := by
  cases h0 : r.fault with
  | some x => rw [Run.andThen_of_fault h0]; exact hr
  | none =>
    have hw := hr.2 (by intro e; rw [h0]; simp)
    obtain ⟨h1, h2⟩ := hf h0
    constructor
    · intro e he
      rw [Run.andThen_fault h0] at he
      obtain ⟨pre, c, hc, hrs, hwa⟩ := h1 e he
      refine ⟨r.calls ++ pre, c, ?_, ?_, ?_⟩
      · rw [Run.andThen_calls h0, hc, List.append_assoc]
      · rw [Run.andThen_state h0]; exact hrs
      · rw [writer_after_append, hw, Run.andThen_state h0]; exact hwa
    · intro he
      rw [Run.andThen_fault h0] at he
      rw [Run.andThen_calls h0, writer_after_append, hw, Run.andThen_state h0]
      exact h2 he

theorem Propagates.load_sampler_specific (env : Env S A R W K O C M E) (p : Args)
    (w : World S A R W K O C) : Propagates (M := M) env p w (call_load_sampler_specific env w) := by
  unfold call_load_sampler_specific
  cases h : env.load_sampler_specific w.resume_recorder w.sampler with
  | ok x => exact ⟨by intro e he; simp [invoke, Except.map] at he, fun _ => rfl⟩
  | error e =>
    refine ⟨?_, fun he => absurd rfl (he e)⟩
    intro e' he
    simp only [invoke, Except.map, Option.some.injEq, Fault.raised.injEq] at he
    subst he
    exact ⟨[], _, rfl, h, rfl⟩

theorem Propagates.load_rng (env : Env S A R W K O C M E) (p : Args)
    (w : World S A R W K O C) : Propagates (M := M) env p w (call_load_rng env w) := by
  unfold call_load_rng
  cases h : env.load_rng w.resume_recorder w.base_rng with
  | ok x => exact ⟨by intro e he; simp [invoke, Except.map] at he, fun _ => rfl⟩
  | error e =>
    refine ⟨?_, fun he => absurd rfl (he e)⟩
    intro e' he
    simp only [invoke, Except.map, Option.some.injEq, Fault.raised.injEq] at he
    subst he
    exact ⟨[], _, rfl, h, rfl⟩

theorem Propagates.callback (env : Env S A R W K O C M E) (p : Args) (m : Nat)
    (w : World S A R W K O C) : Propagates (M := M) env p w (call_callback env m w) := by
  unfold call_callback
  cases h : env.callback w.callback with
  | ok x => exact ⟨by intro e he; simp [invoke, Except.map] at he, fun _ => rfl⟩
  | error e =>
    refine ⟨?_, fun he => absurd rfl (he e)⟩
    intro e' he
    simp only [invoke, Except.map, Option.some.injEq, Fault.raised.injEq] at he
    subst he
    exact ⟨[], _, rfl, h, rfl⟩

theorem Propagates.print_progress (env : Env S A R W K O C M E) (p : Args) (m : Nat)
    (w : World S A R W K O C) : Propagates (M := M) env p w (call_print_progress env p m w) := by
  unfold call_print_progress
  cases h : env.print_progress m p.start p.finish p.refresh p.warmup p.prefix_ p.suffix_ w.o with
  | ok x => exact ⟨by intro e he; simp [invoke, Except.map] at he, fun _ => rfl⟩
  | error e =>
    refine ⟨?_, fun he => absurd rfl (he e)⟩
    intro e' he
    simp only [invoke, Except.map, Option.some.injEq, Fault.raised.injEq] at he
    subst he
    exact ⟨[], _, rfl, h, rfl⟩

theorem Propagates.transition (env : Env S A R W K O C M E) (p : Args) (m : Nat)
    (w : World S A R W K O C) : Propagates (M := M) env p w (call_transition env m w) := by
  unfold call_transition
  cases h : env.transition w.sampler w.base_rng w.init_s with
  | ok x => exact ⟨by intro e he; simp [invoke, Except.map] at he, fun _ => rfl⟩
  | error e =>
    refine ⟨?_, fun he => absurd rfl (he e)⟩
    intro e' he
    simp only [invoke, Except.map, Option.some.injEq, Fault.raised.injEq] at he
    subst he
    exact ⟨[], _, rfl, h, rfl⟩

theorem Propagates.write_sample_params (env : Env S A R W K O C M E) (p : Args) (model : M)
    (m : Nat) (w : World S A R W K O C) :
    Propagates env p w (call_write_sample_params env model m w) := by
  unfold call_write_sample_params
  cases h : env.write_sample_params w.writer w.base_rng w.init_s w.sampler model with
  | ok x =>
    exact ⟨by intro e he; simp [invoke, Except.map] at he,
      fun _ => by simp [invoke, Except.map, writer_after, h]⟩
  | error e =>
    refine ⟨?_, fun he => absurd rfl (he e)⟩
    intro e' he
    simp only [invoke, Except.map, Option.some.injEq, Fault.raised.injEq] at he
    subst he
    exact ⟨[], _, rfl, h, rfl⟩

theorem Propagates.write_diagnostic_params (env : Env S A R W K O C M E) (p : Args)
    (m : Nat) (w : World S A R W K O C) :
    Propagates (M := M) env p w (call_write_diagnostic_params env m w) := by
  unfold call_write_diagnostic_params
  cases h : env.write_diagnostic_params w.writer w.init_s w.sampler with
  | ok x =>
    exact ⟨by intro e he; simp [invoke, Except.map] at he,
      fun _ => by simp [invoke, Except.map, writer_after, h]⟩
  | error e =>
    refine ⟨?_, fun he => absurd rfl (he e)⟩
    intro e' he
    simp only [invoke, Except.map, Option.some.injEq, Fault.raised.injEq] at he
    subst he
    exact ⟨[], _, rfl, h, rfl⟩

theorem Propagates.save_inits (env : Env S A R W K O C M E) (p : Args) (model : M)
    (w : World S A R W K O C) : Propagates env p w (call_save_inits env model w) := by
  unfold call_save_inits
  cases h : env.save_inits w.resume_recorder model w.base_rng w.init_s with
  | ok x => exact ⟨by intro e he; simp [invoke, Except.map] at he, fun _ => rfl⟩
  | error e =>
    refine ⟨?_, fun he => absurd rfl (he e)⟩
    intro e' he
    simp only [invoke, Except.map, Option.some.injEq, Fault.raised.injEq] at he
    subst he
    exact ⟨[], _, rfl, h, rfl⟩

theorem Propagates.save_sampler_specific (env : Env S A R W K O C M E) (p : Args)
    (w : World S A R W K O C) : Propagates (M := M) env p w (call_save_sampler_specific env w) := by
  unfold call_save_sampler_specific
  cases h : env.save_sampler_specific w.resume_recorder w.sampler with
  | ok x => exact ⟨by intro e he; simp [invoke, Except.map] at he, fun _ => rfl⟩
  | error e =>
    refine ⟨?_, fun he => absurd rfl (he e)⟩
    intro e' he
    simp only [invoke, Except.map, Option.some.injEq, Fault.raised.injEq] at he
    subst he
    exact ⟨[], _, rfl, h, rfl⟩

theorem Propagates.save_rng (env : Env S A R W K O C M E) (p : Args)
    (w : World S A R W K O C) : Propagates (M := M) env p w (call_save_rng env w) := by
  unfold call_save_rng
  cases h : env.save_rng w.resume_recorder w.base_rng with
  | ok x => exact ⟨by intro e he; simp [invoke, Except.map] at he, fun _ => rfl⟩
  | error e =>
    refine ⟨?_, fun he => absurd rfl (he e)⟩
    intro e' he
    simp only [invoke, Except.map, Option.some.injEq, Fault.raised.injEq] at he
    subst he
    exact ⟨[], _, rfl, h, rfl⟩

theorem Propagates.load_block (env : Env S A R W K O C M E) (p : Args)
    (w : World S A R W K O C) : Propagates (M := M) env p w (load_block env p w) := by
  unfold Stan.load_block
  split
  · exact Propagates.andThen env p w _ _ (Propagates.load_sampler_specific env p w)
      (fun _ => Propagates.load_rng env p _)
  · exact Propagates.skip env p w

theorem Propagates.record_block (env : Env S A R W K O C M E) (p : Args) (model : M) (m : Nat)
    (w : World S A R W K O C) : Propagates env p w (record_block env p model m w) := by
  unfold Stan.record_block
  split
  · split
    · exact ⟨by intro e he; simp at he, fun _ => rfl⟩
    · split
      · exact Propagates.andThen env p w _ _ (Propagates.write_sample_params env p model m w)
          (fun _ => Propagates.write_diagnostic_params env p m _)
      · exact Propagates.skip env p w
  · exact Propagates.skip env p w

theorem Propagates.loop_body (env : Env S A R W K O C M E) (p : Args) (model : M) (m : Nat)
    (w : World S A R W K O C) : Propagates env p w (loop_body env p model m w) := by
  unfold Stan.loop_body
  exact Propagates.andThen env p w _ _ (Propagates.callback env p m w) fun _ =>
    Propagates.andThen env p _ _ _ (Propagates.print_progress env p m _) fun _ =>
    Propagates.andThen env p _ _ _ (Propagates.transition env p m _) fun _ =>
    Propagates.record_block env p model m _

theorem Propagates.for_loop (env : Env S A R W K O C M E) (p : Args) (model : M) :
    ∀ (k m : Nat) (w : World S A R W K O C), Propagates env p w (for_loop env p model k m w) := by
  intro k
  induction k with
  | zero => intro m w; exact Propagates.skip env p w
  | succ k ih =>
    intro m w
    rw [Stan.for_loop]
    exact Propagates.andThen env p w _ _ (Propagates.loop_body env p model m w)
      (fun _ => ih (m + 1) _)

theorem Propagates.save_block (env : Env S A R W K O C M E) (p : Args) (model : M)
    (w : World S A R W K O C) : Propagates env p w (save_block env p model w) := by
  unfold Stan.save_block
  split
  · exact Propagates.andThen env p w _ _ (Propagates.save_inits env p model w) fun _ =>
      Propagates.andThen env p _ _ _ (Propagates.save_sampler_specific env p _) fun _ =>
      Propagates.save_rng env p _
  · exact Propagates.skip env p w

theorem Propagates.run_markov_chain (env : Env S A R W K O C M E) (p : Args) (model : M)
    (w : World S A R W K O C) : Propagates env p w (run_markov_chain env p model w) := by
  unfold Stan.run_markov_chain
  exact Propagates.andThen env p w _ _ (Propagates.load_block env p w) fun _ =>
    Propagates.andThen env p _ _ _ (Propagates.for_loop env p model _ 0 _) fun _ =>
    Propagates.save_block env p model _


theorem prefix_of_three {α : Type} {l : List α} {a b c : α} (h : l <+: [a, b, c]) :
    l = [] ∨ l = [a] ∨ l = [a, b] ∨ l = [a, b, c] := by
  obtain ⟨t, ht⟩ := h
  match l, ht with
  | [], _ => exact Or.inl rfl
  | [x], ht => simp at ht; rw [ht.1]; exact Or.inr (Or.inl rfl)
  | [x, y], ht => simp at ht; rw [ht.1, ht.2.1]; exact Or.inr (Or.inr (Or.inl rfl))
  | [x, y, z], ht =>
    simp at ht; rw [ht.1, ht.2.1, ht.2.2.1]; exact Or.inr (Or.inr (Or.inr rfl))
  | x :: y :: z :: u :: v, ht => simp at ht

theorem snoc_eq_append {α : Type} {pre pre0 post : List α} {c : α}
    (h : pre ++ [c] = pre0 ++ post) :
    (post = [] ∧ pre0 = pre ++ [c]) ∨ ∃ post', post = post' ++ [c] ∧ pre = pre0 ++ post' := by
  rcases List.eq_nil_or_concat post with rfl | ⟨post', d, rfl⟩
  · exact Or.inl ⟨rfl, by simpa using h.symm⟩
  · right
    rw [List.concat_eq_append, ← List.append_assoc] at h
    obtain ⟨h1, h2⟩ := List.append_inj' h rfl
    simp only [List.cons.injEq, and_true] at h2
    subst h2
    exact ⟨post', by simp, h1⟩

/-- A run that has stopped on an exception `e` stopped at the call that threw it: that call is the
last of the log (nothing after it is executed, the call is not repeated) and `e` is the exception
it threw.  If it is not a `save_` call, no `save_` call was made; if it is `save_inits`, no
`save_` call precedes it (so the two later saves are not made); if it is `save_sampler_specific`,
no `save_rng` call was made.  The writer is left in the state produced by the writer calls made
before the failure. -/
theorem raised_fault_is_last_call (env : Env S A R W K O C M E) (p : Args) (model : M)
    (w : World S A R W K O C) (e : E)
    (h : (run_markov_chain env p model w).fault = some (.raised e)) :
    ∃ pre c, (run_markov_chain env p model w).calls = pre ++ [c] ∧
      c.raises env p (run_markov_chain env p model w).state e ∧
      writer_after env pre w.writer = some (run_markov_chain env p model w).state.writer ∧
      (c.isSave = false → ∀ c' ∈ (run_markov_chain env p model w).calls, c'.isSave = false) ∧
      (∀ md rng s, c = .save_inits md rng s → ∀ c' ∈ pre, c'.isSave = false) ∧
      (∀ a, c = .save_sampler_specific a →
        ∀ c' ∈ (run_markov_chain env p model w).calls, ∀ rng, c' ≠ .save_rng rng) := by
  obtain ⟨pre, c, hc, hr, hw⟩ := (Propagates.run_markov_chain env p model w).1 e h
  obtain ⟨pre0, post, h1, h2, h3, _⟩ := run_markov_chain_split env p model w
  refine ⟨pre, c, hc, hr, hw, ?_, ?_, ?_⟩
  · intro hns c' hc'
    rw [h1] at hc
    rcases snoc_eq_append hc.symm with ⟨hp, _⟩ | ⟨post', hp, _⟩
    · rw [h1, hp, List.append_nil] at hc'; exact h2 c' hc'
    · exfalso
      have hmem : c ∈ save_calls p model (run_markov_chain env p model w).state :=
        h3.subset (by rw [hp]; simp)
      unfold save_calls at hmem
      split at hmem
      · simp at hmem
      · simp only [List.mem_cons, List.mem_singleton, List.not_mem_nil, or_false] at hmem
        rcases hmem with rfl | rfl | rfl <;> simp [Call.isSave] at hns
  · intro md rng s hcs c' hc'
    subst hcs
    rw [h1] at hc
    rcases snoc_eq_append hc.symm with ⟨_, hp⟩ | ⟨post', hp, hpre⟩
    · have := h2 (.save_inits md rng s) (by rw [hp]; simp)
      simp [Call.isSave] at this
    · rw [hp] at h3
      unfold save_calls at h3
      split at h3
      · simp at h3
      · rcases prefix_of_three h3 with h4 | h4 | h4 | h4
        · simp at h4
        · have : post' = [] := by
            cases post' with
            | nil => rfl
            | cons x t => cases t <;> simp at h4
          rw [hpre, this, List.append_nil] at hc'
          exact h2 c' hc'
        · exfalso
          cases post' with
          | nil => simp at h4
          | cons x t =>
            cases t with
            | nil => simp at h4
            | cons y u => cases u <;> simp at h4
        · exfalso
          cases post' with
          | nil => simp at h4
          | cons x t =>
            cases t with
            | nil => simp at h4
            | cons y u =>
              cases u with
              | nil => simp at h4
              | cons z v => cases v <;> simp at h4
  · intro a hcs c' hc' rng hrng
    subst hcs hrng
    rw [h1] at hc
    rcases snoc_eq_append hc.symm with ⟨_, hp⟩ | ⟨post', hp, hpre⟩
    · have := h2 (.save_sampler_specific a) (by rw [hp]; simp)
      simp [Call.isSave] at this
    · rw [hp] at h3
      rw [h1, hp, List.mem_append] at hc'
      rcases hc' with hc' | hc'
      · have := h2 _ hc'
        simp [Call.isSave] at this
      · unfold save_calls at h3
        split at h3
        · simp at h3
        · rcases prefix_of_three h3 with h4 | h4 | h4 | h4
          · simp at h4
          · exfalso
            cases post' with
            | nil => simp at h4
            | cons x t => cases t <;> simp at h4
          · rw [h4] at hc'
            simp at hc'
          · exfalso
            cases post' with
            | nil => simp at h4
            | cons x t =>
              cases t with
              | nil => simp at h4
              | cons y u =>
                cases u with
                | nil => simp at h4
                | cons z v => cases v <;> simp at h4


theorem raised_fault_is_last_call_example :
    (run_markov_chain (fullDiskEnv 2) (demoArgs 3 1 true false) () (demoWorld 9)).fault =
        some (.raised .io_failure) ∧
      (run_markov_chain (fullDiskEnv 2) (demoArgs 3 1 true false) () (demoWorld 9)).calls.getLast? =
        some (.write_sample_params 1 11 32 9 ()) ∧
      (run_markov_chain (fullDiskEnv 2) (demoArgs 3 1 true false) () (demoWorld 9)).state.writer =
        [11, 8] ∧
      ∀ c' ∈ (run_markov_chain (fullDiskEnv 2) (demoArgs 3 1 true false) () (demoWorld 9)).calls,
        c'.isSave = false := by
  obtain ⟨pre, c, hc, _, _, hns, _, _⟩ :=
    raised_fault_is_last_call (fullDiskEnv 2) (demoArgs 3 1 true false) () (demoWorld 9) .io_failure
      (by decide)
  have hlast : (run_markov_chain (fullDiskEnv 2) (demoArgs 3 1 true false) () (demoWorld 9)).calls.getLast?
      = some (.write_sample_params 1 11 32 9 ()) := by decide
  have hcl : c = .write_sample_params 1 11 32 9 () := by
    rw [hc] at hlast
    simpa using hlast
  exact ⟨by decide, hlast, by decide, hns (by rw [hcl]; rfl)⟩

theorem Call.not_transition_of_load {c : Call S A R M} (h : c.isLoad = true) :
    c.isTransition = false := by
  cases c <;> simp [Call.isLoad] at h <;> rfl

theorem loop_body_fault_callback (env : Env S A R W K O C M E) (p : Args) (model : M) (m i : Nat)
    (w : World S A R W K O C) (f : Fault E) (h : (loop_body env p model m w).fault = some f)
    (hl : (loop_body env p model m w).calls.getLast? = some (.callback i)) :
    (loop_body env p model m w).calls = [.callback m] ∧ (loop_body env p model m w).state = w ∧
      i = m := by
  revert h hl
  unfold loop_body record_block call_callback call_print_progress call_transition
    call_write_sample_params call_write_diagnostic_params
  cases h1 : env.callback w.callback with
  | error e => simp [Run.andThen, invoke, Except.map]; intro _ h; exact h.symm
  | ok c =>
    cases h2 : env.print_progress m p.start p.finish p.refresh p.warmup p.prefix_ p.suffix_ w.o with
    | error e => simp [Run.andThen, invoke, Except.map, h2]
    | ok o =>
      cases h3 : env.transition w.sampler w.base_rng w.init_s with
      | error e => simp [Run.andThen, invoke, Except.map, h2, h3]
      | ok x =>
        simp only [Run.andThen, invoke, Except.map, h2, h3]
        by_cases hs : p.save = true
        · by_cases hz : p.num_thin = 0
          · simp [hs, hz]
          · by_cases ht : (m : Int).tmod p.num_thin = 0
            · simp only [hs, hz, ht, if_true, if_false]
              cases h4 : env.write_sample_params w.writer x.2.1 x.2.2 x.1 model with
              | error e => simp [Run.skip]
              | ok wr =>
                cases h5 : env.write_diagnostic_params wr x.2.2 x.1 with
                | error e => simp [h5]
                | ok wr2 => simp [h5]
            · simp [hs, hz, ht, Run.skip]
        · simp [hs, Run.skip]

/-- A run that has stopped on an exception with the callback of loop index `m` as last call:
the callback threw that exception, `m` is below `num_iterations`, exactly `m` transitions were made and the state left is the one after those
`m` transitions, no call other than that callback belongs to iteration `m` or a later one (no
progress report, transition or writer call), and no `save_` call is made. -/
theorem stopped_at_callback (env : Env S A R W K O C M E) (p : Args) (model : M)
    (w : World S A R W K O C) (e : E) (m : Nat)
    (hf : (run_markov_chain env p model w).fault = some (.raised e))
    (hl : (run_markov_chain env p model w).calls.getLast? = some (.callback m)) :
    env.callback (run_markov_chain env p model w).state.callback = .error e ∧
      (m : Int) < p.num_iterations ∧
      transitions env m (load_block env p w : Run E _ (Call S A R M)).state.chain =
        .ok (run_markov_chain env p model w).state.chain ∧
      ((run_markov_chain env p model w).calls.filter Call.isTransition).length = m ∧
      (∀ c ∈ (run_markov_chain env p model w).calls, ∀ i, c.iter = some i → m ≤ i →
        c = .callback m) ∧
      (∀ c ∈ (run_markov_chain env p model w).calls, c.isSave = false) := by
  have hraise : env.callback (run_markov_chain env p model w).state.callback = .error e := by
    obtain ⟨pre, c, hc, hr, _⟩ := (Propagates.run_markov_chain env p model w).1 e hf
    rw [hc, List.getLast?_concat, Option.some.injEq] at hl
    subst hl
    exact hr
  refine ⟨hraise, ?_⟩
  cases h0 : (load_block env p w : Run E _ (Call S A R M)).fault with
  | some f =>
    exfalso
    rw [run_markov_chain, Run.andThen_of_fault h0] at hl
    have := (load_block_mem env p w (List.mem_of_getLast?_eq_some hl)).1
    simp [Call.isLoad] at this
  | none =>
    cases h1 : (for_loop env p model p.num_iterations.toNat 0
        (load_block env p w).state).fault with
    | none =>
      exfalso
      have hfs : (save_block env p model (for_loop env p model p.num_iterations.toNat 0
          (load_block env p w).state).state).fault = some (.raised e) := by
        rw [run_markov_chain, Run.andThen_fault h0, Run.andThen_fault h1] at hf; exact hf
      obtain ⟨pre, c, hc, _⟩ := (Propagates.save_block env p model _).1 e hfs
      rw [run_markov_chain, Run.andThen_calls h0, Run.andThen_calls h1, hc,
        ← List.append_assoc, ← List.append_assoc, List.getLast?_concat, Option.some.injEq] at hl
      have hm : c ∈ (save_block env p model (for_loop env p model p.num_iterations.toNat 0
          (load_block env p w).state).state).calls := by rw [hc]; simp
      have := (save_block_mem env p model _ hm).1
      rw [hl] at this
      simp [Call.isSave] at this
    | some f =>
      have hcalls : (run_markov_chain env p model w).calls =
          (load_block env p w).calls ++
            (for_loop env p model p.num_iterations.toNat 0 (load_block env p w).state).calls := by
        rw [run_markov_chain, Run.andThen_calls h0, Run.andThen_of_fault h1]
      have hstate : (run_markov_chain env p model w).state =
          (for_loop env p model p.num_iterations.toNat 0 (load_block env p w).state).state := by
        rw [run_markov_chain, Run.andThen_state h0, Run.andThen_of_fault h1]
      have hfault : f = .raised e := by
        rw [run_markov_chain, Run.andThen_fault h0, Run.andThen_of_fault h1, h1] at hf
        exact Option.some.inj hf
      subst hfault
      obtain ⟨j, hj, hj0, hjf, hjc, hjs⟩ := for_loop_fault env p model _ 0 _ _ h1
      obtain ⟨pre, c, hc, _⟩ := (Propagates.loop_body env p model _ _).1 e hjf
      have hlast : (loop_body env p model (0 + j) (for_loop env p model j 0
          (load_block env p w).state).state).calls.getLast? = some (.callback m) := by
        rw [hcalls, hjc, hc, ← List.append_assoc, ← List.append_assoc,
          List.getLast?_concat] at hl
        rw [hc, List.getLast?_concat]; exact hl
      obtain ⟨hbc, hbs, hm⟩ := loop_body_fault_callback env p model _ m _ _ hjf hlast
      rw [Nat.zero_add] at hm
      subst hm
      obtain ⟨htr, hlc, _⟩ := for_loop_done env p model m 0 _ hj0
      have hall : (run_markov_chain env p model w).calls =
          (load_block env p w).calls ++ (for_loop env p model m 0 (load_block env p w).state).calls
            ++ [.callback m] := by
        rw [hcalls, hjc, hbc, Nat.zero_add, List.append_assoc]
      refine ⟨by omega, ?_, ?_, ?_, ?_⟩
      · rw [hstate, hjs, hbs]; exact htr
      · rw [hall, List.filter_append, List.filter_append, hlc, List.length_append,
          List.length_append, (loop_calls_transition env p model m 0 _ _ htr).1]
        have : (load_block env p w : Run E _ (Call S A R M)).calls.filter Call.isTransition = [] := by
          rw [List.filter_eq_nil_iff]
          intro c hc
          rw [Call.not_transition_of_load (load_block_mem env p w hc).1]
          simp
        rw [this]
        simp [Call.isTransition]
      · intro c hc i hi hmi
        rw [hall, List.mem_append, List.mem_append] at hc
        rcases hc with (hc | hc) | hc
        · rw [Call.iter_of_load (load_block_mem env p w hc).1] at hi
          exact absurd hi (by simp)
        · obtain ⟨i', _, h2, h3, _⟩ := for_loop_mem env p model _ 0 _ hc
          rw [h3] at hi
          have : i' = i := Option.some.inj hi
          omega
        · simpa using hc
      · intro c hc
        rw [hall, List.mem_append, List.mem_append] at hc
        rcases hc with (hc | hc) | hc
        · exact Call.not_save_of_load (load_block_mem env p w hc).1
        · obtain ⟨i', _, _, h3, _⟩ := for_loop_mem env p model _ 0 _ hc
          exact Call.not_save_of_iter h3
        · rw [List.mem_singleton] at hc
          subst hc; rfl

theorem stopped_at_callback_example :
    (run_markov_chain demoEnv (demoArgs 5 1 true false) () (demoWorld 2)).fault =
        some (.raised .cancelled) ∧
      (run_markov_chain demoEnv (demoArgs 5 1 true false) () (demoWorld 2)).calls.getLast? =
        some (.callback 2) ∧
      ((run_markov_chain demoEnv (demoArgs 5 1 true false) () (demoWorld 2)).calls.filter
        Call.isTransition).length = 2 ∧
      transitions demoEnv 2 (7, 9, 1) = .ok (9, 11, 32) := by
  have h := stopped_at_callback demoEnv (demoArgs 5 1 true false) () (demoWorld 2) .cancelled 2
    (by decide) (by decide)
  exact ⟨by decide, by decide, h.2.2.2.1, h.2.2.1.trans (congrArg Except.ok (by decide))⟩

end Failures

section Resume
variable {S A R W K O C M E : Type}

theorem load_block_sampling (env : Env S A R W K O C M E) (p : Args) (w : World S A R W K O C)
    (hw : p.warmup = false)
    (h : (load_block env p w : Run E _ (Call S A R M)).fault = none) :
    ∃ ka kr, env.load_sampler_specific w.resume_recorder w.sampler = .ok ka ∧
      env.load_rng ka.1 w.base_rng = .ok kr ∧
      (load_block env p w : Run E _ (Call S A R M)).state.chain = (ka.2, kr.2, w.init_s) := by
  revert h
  unfold load_block call_load_sampler_specific call_load_rng
  cases h1 : env.load_sampler_specific w.resume_recorder w.sampler with
  | error e => simp [Run.andThen, invoke, Except.map, hw]
  | ok ka =>
    cases h2 : env.load_rng ka.1 w.base_rng with
    | error e => simp [Run.andThen, invoke, Except.map, h2, hw]
    | ok kr =>
      intro _
      exact ⟨ka, kr, rfl, h2, by simp [Run.andThen, invoke, Except.map, h2, hw, World.chain]⟩

/-- The store of `demoEnv` is lossless: a `load_` returns what the matching `save_` stored. -/
theorem demoEnv_store_lossless (k : DemoStore) (a a' r r' : Nat) :
    (∃ k', demoEnv.save_sampler_specific k a = .ok k' ∧
      demoEnv.load_sampler_specific k' a' = .ok (k', a)) ∧
    (∃ k', demoEnv.save_rng k r = .ok k' ∧ demoEnv.load_rng k' r' = .ok (k', r)) :=
  ⟨⟨_, rfl, rfl⟩, ⟨_, rfl, rfl⟩⟩

end Resume

/-! ## The scalar finiteness check -/

/-- The assertions of `TEST(ProbDistributionsErrorHandling, CheckXDefaultPolicy)`: the check is
true for `x = 0` and throws for `+inf`, `-inf` and NaN. -/
theorem check_x_default_policy_test (function : String) (result : Num) :
    check_x function (.finite 0) result .throwing = .returned true result ∧
      check_x function .pos_inf result .throwing = .domain_error function .pos_inf result ∧
      check_x function .neg_inf result .throwing = .domain_error function .neg_inf result ∧
      check_x function .nan result .throwing = .domain_error function .nan result :=
  ⟨rfl, rfl, rfl, rfl⟩

/-- C10. With the throwing policy the scalar check raises a domain error exactly when `x` is
`+inf`, `-inf` or NaN, the error carrying `x` and the caller's label and the output being left as
it was; for a finite `x` it returns `true` and leaves the output as it was. -/
theorem C10_check_x_throwing (function : String) (x result : Num) :
    ((∃ f v r, check_x function x result .throwing = .domain_error f v r) ↔
        (x = .pos_inf ∨ x = .neg_inf ∨ x = .nan)) ∧
      ((x = .pos_inf ∨ x = .neg_inf ∨ x = .nan) →
        check_x function x result .throwing = .domain_error function x result) ∧
      (∀ q, x = .finite q → check_x function x result .throwing = .returned true result) := by
  cases x <;> simp [check_x, report_invalid, Num.isfinite]

theorem C10_check_x_throwing_witness :
    check_x "check_x (%1%)" .pos_inf (.finite 0) .throwing =
        .domain_error "check_x (%1%)" .pos_inf (.finite 0) ∧
      check_x "check_x (%1%)" (.finite 3) (.finite 0) .throwing = .returned true (.finite 0) :=
  ⟨(C10_check_x_throwing "check_x (%1%)" .pos_inf (.finite 0)).2.1 (Or.inl rfl),
    (C10_check_x_throwing "check_x (%1%)" (.finite 3) (.finite 0)).2.2 3 rfl⟩

/-! ## The sentinel policy, sequences and matrices -/

/-- The assertions of `TEST(ProbDistributionsErrorHandling, CheckXErrnoPolicy)`: with the errno
policy the check is true for `x = 0`, and false with a NaN output for `+inf`, `-inf` and NaN. -/
theorem check_x_errno_policy_test (function : String) (result : Num) :
    check_x function (.finite 0) result .sentinel = .returned true result ∧
      check_x function .pos_inf result .sentinel = .returned false .nan ∧
      check_x function .neg_inf result .sentinel = .returned false .nan ∧
      check_x function .nan result .sentinel = .returned false .nan :=
  ⟨rfl, rfl, rfl, rfl⟩

/-- C11. With the sentinel policy the scalar check never raises: for `x` equal to `+inf`, `-inf`
or NaN it returns `false` and the output becomes NaN; for a finite `x` it returns `true` and
leaves the output as it was. -/
theorem C11_check_x_sentinel (function : String) (x result : Num) :
    (∀ f v r, check_x function x result .sentinel ≠ .domain_error f v r) ∧
      ((x = .pos_inf ∨ x = .neg_inf ∨ x = .nan) →
        check_x function x result .sentinel = .returned false .nan) ∧
      (∀ q, x = .finite q → check_x function x result .sentinel = .returned true result) := by
  cases x <;> simp [check_x, report_invalid, Num.isfinite]

theorem C11_check_x_sentinel_witness :
    check_x "check_x (%1%)" .nan (.finite 0) .sentinel = .returned false .nan ∧
      check_x "check_x (%1%)" (.finite 3) (.finite 0) .sentinel = .returned true (.finite 0) :=
  ⟨(C11_check_x_sentinel "check_x (%1%)" .nan (.finite 0)).2.1 (Or.inr (Or.inr rfl)),
    (C11_check_x_sentinel "check_x (%1%)" (.finite 3) (.finite 0)).2.2 3 rfl⟩

theorem check_x_of_isfinite (function : String) (x result : Num) (policy : Policy)
    (h : x.isfinite = true) : check_x function x result policy = .returned true result := by
  simp [check_x, h]

theorem check_x_of_not_isfinite (function : String) (x result : Num) (policy : Policy)
    (h : x.isfinite = false) :
    check_x function x result policy = report_invalid policy function x result := by
  simp [check_x, h]

theorem check_x_eq_true_iff (function : String) (x result : Num) (policy : Policy) :
    check_x function x result policy = .returned true result ↔ x.isfinite = true := by
  cases h : x.isfinite
  · rw [check_x_of_not_isfinite function x result policy h]
    cases policy <;> simp [report_invalid]
  · rw [check_x_of_isfinite function x result policy h]; simp

theorem check_x_vector_cons_valid (function : String) (x : Num) (xs : List Num) (result : Num)
    (policy : Policy) (h : x.isfinite = true) :
    check_x_vector function (x :: xs) result policy = check_x_vector function xs result policy := by
  simp [check_x_vector, check_x_of_isfinite function x result policy h]

theorem check_x_vector_cons_invalid (function : String) (x : Num) (xs : List Num) (result : Num)
    (policy : Policy) (h : x.isfinite = false) :
    check_x_vector function (x :: xs) result policy = check_x function x result policy := by
  rw [check_x_vector, check_x_of_not_isfinite function x result policy h]
  cases policy <;> rfl

/-- The sequence check is the scalar check at the first element that is not finite. -/
theorem check_x_vector_first_invalid (function : String) (result : Num) (policy : Policy) :
    ∀ (xs : List Num) (y : Num), xs.find? (fun x => !x.isfinite) = some y →
      check_x_vector function xs result policy = check_x function y result policy := by
  intro xs
  induction xs with
  | nil => intro y h; simp at h
  | cons x xs ih =>
    intro y h
    cases hx : x.isfinite
    · rw [check_x_vector_cons_invalid function x xs result policy hx]
      simp [List.find?_cons, hx] at h
      rw [h]
    · rw [check_x_vector_cons_valid function x xs result policy hx]
      simp [List.find?_cons, hx] at h
      exact ih y h

/-- The sequence check returns `true`, output untouched, when every element is finite. -/
theorem check_x_vector_all_valid (function : String) (result : Num) (policy : Policy) :
    ∀ (xs : List Num), xs.find? (fun x => !x.isfinite) = none →
      check_x_vector function xs result policy = .returned true result := by
  intro xs
  induction xs with
  | nil => intro _; rfl
  | cons x xs ih =>
    intro h
    cases hx : x.isfinite
    · simp [List.find?_cons, hx] at h
    · rw [check_x_vector_cons_valid function x xs result policy hx]
      simp [List.find?_cons, hx] at h
      exact ih (List.find?_eq_none.mpr (by simpa using h))

theorem check_x_vector_eq_true_iff (function : String) (result : Num) (policy : Policy)
    (xs : List Num) :
    check_x_vector function xs result policy = .returned true result ↔
      ∀ x ∈ xs, check_x function x result policy = .returned true result := by
  simp only [check_x_eq_true_iff]
  cases hf : xs.find? (fun x => !x.isfinite) with
  | none =>
    rw [check_x_vector_all_valid function result policy xs hf]
    simp only [true_iff]
    intro x hx
    have := List.find?_eq_none.mp hf x hx
    simpa using this
  | some y =>
    rw [check_x_vector_first_invalid function result policy xs y hf]
    have hy := List.find?_some hf
    have hmem := List.mem_of_find?_eq_some hf
    simp only [Bool.not_eq_true'] at hy
    constructor
    · intro h
      rw [check_x_eq_true_iff] at h
      rw [hy] at h
      exact absurd h (by simp)
    · intro h
      have := h y hmem
      rw [hy] at this
      exact absurd this (by simp)

/-- C12. The sequence and matrix forms of the check are the scalar check lifted to the elements,
inspected from left to right (row by row for a matrix).  They return `true` iff the scalar check
does for every element.  When some element is not finite the outcome is the scalar outcome for the
first such element: the throwing policy raises a domain error carrying that element, the sentinel
policy returns `false` with a NaN output.  When all elements are finite they return `true` and
leave the output as it was. -/
theorem C12_check_x_elementwise (function : String) (xs : List Num) (rows : List (List Num))
    (result : Num) (policy : Policy) :
    (check_x_vector function xs result policy = .returned true result ↔
        ∀ x ∈ xs, check_x function x result policy = .returned true result) ∧
      (∀ y, xs.find? (fun x => !x.isfinite) = some y →
        check_x_vector function xs result policy = check_x function y result policy ∧
        check_x_vector function xs result .throwing = .domain_error function y result ∧
        check_x_vector function xs result .sentinel = .returned false .nan) ∧
      (xs.find? (fun x => !x.isfinite) = none →
        check_x_vector function xs result policy = .returned true result) ∧
      (check_x_matrix function rows result policy = .returned true result ↔
        ∀ row ∈ rows, ∀ x ∈ row, check_x function x result policy = .returned true result) ∧
      (∀ y, rows.flatten.find? (fun x => !x.isfinite) = some y →
        check_x_matrix function rows result policy = check_x function y result policy ∧
        check_x_matrix function rows result .throwing = .domain_error function y result ∧
        check_x_matrix function rows result .sentinel = .returned false .nan) ∧
      (rows.flatten.find? (fun x => !x.isfinite) = none →
        check_x_matrix function rows result policy = .returned true result) := by
  have key : ∀ (l : List Num) (y : Num), l.find? (fun x => !x.isfinite) = some y →
      check_x_vector function l result policy = check_x function y result policy ∧
      check_x_vector function l result .throwing = .domain_error function y result ∧
      check_x_vector function l result .sentinel = .returned false .nan := by
    intro l y h
    have hy := List.find?_some h
    simp only [Bool.not_eq_true'] at hy
    refine ⟨check_x_vector_first_invalid function result policy l y h, ?_, ?_⟩
    · rw [check_x_vector_first_invalid function result .throwing l y h,
        check_x_of_not_isfinite function y result .throwing hy]; rfl
    · rw [check_x_vector_first_invalid function result .sentinel l y h,
        check_x_of_not_isfinite function y result .sentinel hy]; rfl
  refine ⟨check_x_vector_eq_true_iff function result policy xs, key xs,
    check_x_vector_all_valid function result policy xs, ?_, key rows.flatten,
    check_x_vector_all_valid function result policy rows.flatten⟩
  unfold check_x_matrix
  rw [check_x_vector_eq_true_iff]
  simp only [List.mem_flatten]
  constructor
  · intro h row hrow x hx; exact h x ⟨row, hrow, hx⟩
  · rintro h x ⟨row, hrow, hx⟩; exact h row hrow x hx

theorem C12_check_x_elementwise_witness :
    check_x_vector "check_x (%1%)" [.finite (-1), .nan, .pos_inf] (.finite 0) .throwing =
        .domain_error "check_x (%1%)" .nan (.finite 0) ∧
      check_x_matrix "check_x (%1%)" [[.finite (-1), .finite 0], [.neg_inf, .nan]] (.finite 0)
        .sentinel = .returned false .nan :=
  ⟨((C12_check_x_elementwise "check_x (%1%)" [.finite (-1), .nan, .pos_inf] [] (.finite 0)
      .throwing).2.1 .nan (by decide)).2.1,
    ((C12_check_x_elementwise "check_x (%1%)" []
      [[.finite (-1), .finite 0], [.neg_inf, .nan]] (.finite 0) .sentinel).2.2.2.2.1 .neg_inf
      (by decide)).2.2⟩

/-- The assertions of the tests `CheckXVectorDefaultPolicy`, `CheckXVectorErrnoPolicy`,
`CheckXMatrixDefaultPolicy` and `CheckXMatrixErrnoPolicy` (the matrices of the tests are single
columns of three entries). -/
theorem check_x_vector_matrix_tests (function : String) :
    check_x_vector function [.finite (-1), .finite 0, .finite 1] (.finite 0) .throwing =
        .returned true (.finite 0) ∧
      check_x_vector function [.finite (-1), .finite 0, .pos_inf] (.finite 0) .throwing =
        .domain_error function .pos_inf (.finite 0) ∧
      check_x_vector function [.finite (-1), .finite 0, .neg_inf] (.finite 0) .throwing =
        .domain_error function .neg_inf (.finite 0) ∧
      check_x_vector function [.finite (-1), .finite 0, .nan] (.finite 0) .throwing =
        .domain_error function .nan (.finite 0) ∧
      check_x_vector function [.finite (-1), .finite 0, .finite 1] (.finite 0) .sentinel =
        .returned true (.finite 0) ∧
      check_x_vector function [.finite (-1), .finite 0, .pos_inf] (.finite 0) .sentinel =
        .returned false .nan ∧
      check_x_vector function [.finite (-1), .finite 0, .neg_inf] (.finite 0) .sentinel =
        .returned false .nan ∧
      check_x_vector function [.finite (-1), .finite 0, .nan] (.finite 0) .sentinel =
        .returned false .nan ∧
      check_x_matrix function [[.finite (-1)], [.finite 0], [.finite 1]] (.finite 0) .throwing =
        .returned true (.finite 0) ∧
      check_x_matrix function [[.finite (-1)], [.finite 0], [.pos_inf]] (.finite 0) .throwing =
        .domain_error function .pos_inf (.finite 0) ∧
      check_x_matrix function [[.finite (-1)], [.finite 0], [.neg_inf]] (.finite 0) .sentinel =
        .returned false .nan ∧
      check_x_matrix function [[.finite (-1)], [.finite 0], [.nan]] (.finite 0) .sentinel =
        .returned false .nan :=
  ⟨rfl, rfl, rfl, rfl, rfl, rfl, rfl, rfl, rfl, rfl, rfl, rfl⟩

/-! ## The bounded check -/

/-- The inputs the bounded check accepts: a finite `x`, a lower bound that is `-inf` or a finite
number not above `x`, an upper bound that is `+inf` or a finite number not below `x`. -/
theorem check_bounded_x_valid_iff (x low high : Num) :
    (x.isfinite = true ∧ low.isnan = false ∧ high.isnan = false ∧
        low.le x = true ∧ x.le high = true) ↔
      ∃ q, x = .finite q ∧ (low = .neg_inf ∨ ∃ l, low = .finite l ∧ l ≤ q) ∧
        (high = .pos_inf ∨ ∃ h, high = .finite h ∧ q ≤ h) := by
  cases x <;> cases low <;> cases high <;> simp [Num.isfinite, Num.isnan, Num.le]

theorem check_bounded_x_valid_bounds (x low high : Num)
    (h : x.isfinite = true ∧ low.isnan = false ∧ high.isnan = false ∧
      low.le x = true ∧ x.le high = true) :
    low ≠ .pos_inf ∧ high ≠ .neg_inf ∧ low ≠ .nan ∧ high ≠ .nan := by
  revert h
  cases x <;> cases low <;> cases high <;> simp [Num.isfinite, Num.isnan, Num.le]

theorem check_bounded_x_of_valid (function : String) (x low high result : Num) (policy : Policy)
    (h : x.isfinite = true ∧ low.isnan = false ∧ high.isnan = false ∧
      low.le x = true ∧ x.le high = true) :
    check_bounded_x function x low high result policy = .returned true result := by
  obtain ⟨h1, h2, h3, h4, h5⟩ := h
  simp [check_bounded_x, h1, h2, h3, h4, h5]

theorem check_bounded_x_of_invalid (function : String) (x low high result : Num) (policy : Policy)
    (h : ¬(x.isfinite = true ∧ low.isnan = false ∧ high.isnan = false ∧
      low.le x = true ∧ x.le high = true)) :
    ∃ v, check_bounded_x function x low high result policy =
      report_invalid policy function v result := by
  unfold check_bounded_x
  cases h1 : x.isfinite
  · exact ⟨x, by simp⟩
  · cases h2 : low.isnan
    · cases h3 : high.isnan
      · cases h4 : low.le x
        · exact ⟨x, by simp⟩
        · cases h5 : x.le high
          · exact ⟨x, by simp⟩
          · exact absurd ⟨h1, h2, h3, h4, h5⟩ h
      · exact ⟨high, by simp⟩
    · exact ⟨low, by simp⟩

theorem check_bounded_x_out_of_range (function : String) (x low high result : Num)
    (policy : Policy) (h1 : x.isfinite = true) (h2 : low.isnan = false) (h3 : high.isnan = false)
    (h4 : (low.le x && x.le high) = false) :
    check_bounded_x function x low high result policy =
      report_invalid policy function x result := by
  simp only [check_bounded_x, h1, h2, h3, h4]
  simp

/-- The assertions of the tests `CheckBoundedXDefaultPolicyX`, `...Low` and `...High`. -/
theorem check_bounded_x_default_policy_tests (function : String) (result : Num) :
    check_bounded_x function (.finite 0) (.finite (-1)) (.finite 1) result .throwing =
        .returned true result ∧
      check_bounded_x function (.finite (-1)) (.finite (-1)) (.finite 1) result .throwing =
        .returned true result ∧
      check_bounded_x function (.finite 1) (.finite (-1)) (.finite 1) result .throwing =
        .returned true result ∧
      check_bounded_x function (.finite (-2)) (.finite (-1)) (.finite 1) result .throwing =
        .domain_error function (.finite (-2)) result ∧
      check_bounded_x function (.finite 2) (.finite (-1)) (.finite 1) result .throwing =
        .domain_error function (.finite 2) result ∧
      check_bounded_x function .nan (.finite (-1)) (.finite 1) result .throwing =
        .domain_error function .nan result ∧
      check_bounded_x function .neg_inf (.finite (-1)) (.finite 1) result .throwing =
        .domain_error function .neg_inf result ∧
      check_bounded_x function .pos_inf (.finite (-1)) (.finite 1) result .throwing =
        .domain_error function .pos_inf result ∧
      check_bounded_x function (.finite 0) .neg_inf (.finite 1) result .throwing =
        .returned true result ∧
      (∃ v, check_bounded_x function (.finite 0) .nan (.finite 1) result .throwing =
        .domain_error function v result) ∧
      (∃ v, check_bounded_x function (.finite 0) .pos_inf (.finite 1) result .throwing =
        .domain_error function v result) ∧
      check_bounded_x function (.finite 0) (.finite (-1)) .pos_inf result .throwing =
        .returned true result ∧
      (∃ v, check_bounded_x function (.finite 0) (.finite (-1)) .nan result .throwing =
        .domain_error function v result) ∧
      (∃ v, check_bounded_x function (.finite 0) (.finite (-1)) .neg_inf result .throwing =
        .domain_error function v result) := by
  refine ⟨check_bounded_x_of_valid _ _ _ _ _ _ (by decide),
    check_bounded_x_of_valid _ _ _ _ _ _ (by decide),
    check_bounded_x_of_valid _ _ _ _ _ _ (by decide),
    check_bounded_x_out_of_range _ _ _ _ _ _ rfl rfl rfl (by decide),
    check_bounded_x_out_of_range _ _ _ _ _ _ rfl rfl rfl (by decide), rfl, rfl, rfl,
    check_bounded_x_of_valid _ _ _ _ _ _ (by decide), ⟨_, rfl⟩,
    ⟨_, check_bounded_x_out_of_range _ _ _ _ _ _ rfl rfl rfl (by decide)⟩,
    check_bounded_x_of_valid _ _ _ _ _ _ (by decide), ⟨_, rfl⟩,
    ⟨_, check_bounded_x_out_of_range _ _ _ _ _ _ rfl rfl rfl (by decide)⟩⟩

/-- The assertions of the tests `CheckBoundedXErrnoPolicyX`, `...Low` and `...High`. -/
theorem check_bounded_x_errno_policy_tests (function : String) :
    check_bounded_x function (.finite 0) (.finite (-1)) (.finite 1) (.finite 0) .sentinel =
        .returned true (.finite 0) ∧
      check_bounded_x function (.finite (-1)) (.finite (-1)) (.finite 1) (.finite 0) .sentinel =
        .returned true (.finite 0) ∧
      check_bounded_x function (.finite 1) (.finite (-1)) (.finite 1) (.finite 0) .sentinel =
        .returned true (.finite 0) ∧
      check_bounded_x function (.finite (-2)) (.finite (-1)) (.finite 1) (.finite 0) .sentinel =
        .returned false .nan ∧
      check_bounded_x function (.finite 2) (.finite (-1)) (.finite 1) (.finite 0) .sentinel =
        .returned false .nan ∧
      check_bounded_x function .nan (.finite (-1)) (.finite 1) (.finite 0) .sentinel =
        .returned false .nan ∧
      check_bounded_x function .neg_inf (.finite (-1)) (.finite 1) (.finite 0) .sentinel =
        .returned false .nan ∧
      check_bounded_x function .pos_inf (.finite (-1)) (.finite 1) (.finite 0) .sentinel =
        .returned false .nan ∧
      check_bounded_x function (.finite 0) .neg_inf (.finite 1) (.finite 0) .sentinel =
        .returned true (.finite 0) ∧
      check_bounded_x function (.finite 0) .nan (.finite 1) (.finite 0) .sentinel =
        .returned false .nan ∧
      check_bounded_x function (.finite 0) .pos_inf (.finite 1) (.finite 0) .sentinel =
        .returned false .nan ∧
      check_bounded_x function (.finite 0) (.finite (-1)) .pos_inf (.finite 0) .sentinel =
        .returned true (.finite 0) ∧
      check_bounded_x function (.finite 0) (.finite (-1)) .nan (.finite 0) .sentinel =
        .returned false .nan ∧
      check_bounded_x function (.finite 0) (.finite (-1)) .neg_inf (.finite 0) .sentinel =
        .returned false .nan := by
  refine ⟨check_bounded_x_of_valid _ _ _ _ _ _ (by decide),
    check_bounded_x_of_valid _ _ _ _ _ _ (by decide),
    check_bounded_x_of_valid _ _ _ _ _ _ (by decide),
    check_bounded_x_out_of_range _ _ _ _ _ _ rfl rfl rfl (by decide),
    check_bounded_x_out_of_range _ _ _ _ _ _ rfl rfl rfl (by decide), rfl, rfl, rfl,
    check_bounded_x_of_valid _ _ _ _ _ _ (by decide), rfl,
    check_bounded_x_out_of_range _ _ _ _ _ _ rfl rfl rfl (by decide),
    check_bounded_x_of_valid _ _ _ _ _ _ (by decide), rfl,
    check_bounded_x_out_of_range _ _ _ _ _ _ rfl rfl rfl (by decide)⟩

/-- C13. With the throwing policy the bounded check returns `true` (output untouched) exactly
when `x` is finite, no bound is NaN and `low <= x <= high` with both ends included: `x` is a
finite number, `low` is `-inf` or a finite number not above `x`, `high` is `+inf` or a finite
number not below `x`.  In every other case it raises a domain error; in particular `low = +inf`
and `high = -inf` reject every `x`, and a NaN bound rejects every `x`. -/
theorem C13_check_bounded_x_throwing (function : String) (x low high result : Num) :
    (check_bounded_x function x low high result .throwing = .returned true result ↔
        (x.isfinite = true ∧ low.isnan = false ∧ high.isnan = false ∧
          low.le x = true ∧ x.le high = true)) ∧
      (check_bounded_x function x low high result .throwing = .returned true result ↔
        ∃ q, x = .finite q ∧ (low = .neg_inf ∨ ∃ l, low = .finite l ∧ l ≤ q) ∧
          (high = .pos_inf ∨ ∃ h, high = .finite h ∧ q ≤ h)) ∧
      (check_bounded_x function x low high result .throwing ≠ .returned true result →
        ∃ v, check_bounded_x function x low high result .throwing =
          .domain_error function v result) ∧
      ((low = .pos_inf ∨ high = .neg_inf ∨ low = .nan ∨ high = .nan) →
        ∃ v, check_bounded_x function x low high result .throwing =
          .domain_error function v result) := by
  have h1 : check_bounded_x function x low high result .throwing = .returned true result ↔
      (x.isfinite = true ∧ low.isnan = false ∧ high.isnan = false ∧
        low.le x = true ∧ x.le high = true) := by
    constructor
    · intro h
      by_contra hv
      obtain ⟨v, hv'⟩ := check_bounded_x_of_invalid function x low high result .throwing hv
      rw [hv'] at h
      simp [report_invalid] at h
    · exact check_bounded_x_of_valid function x low high result .throwing
  have h3 : check_bounded_x function x low high result .throwing ≠ .returned true result →
      ∃ v, check_bounded_x function x low high result .throwing =
        .domain_error function v result := by
    intro h
    exact check_bounded_x_of_invalid function x low high result .throwing
      (fun hv => h (h1.mpr hv))
  refine ⟨h1, h1.trans (check_bounded_x_valid_iff x low high), h3, ?_⟩
  intro hb
  apply h3
  intro hv
  obtain ⟨hb1, hb2, hb3, hb4⟩ := check_bounded_x_valid_bounds x low high (h1.mp hv)
  rcases hb with h | h | h | h
  · exact hb1 h
  · exact hb2 h
  · exact hb3 h
  · exact hb4 h

theorem C13_check_bounded_x_throwing_witness :
    check_bounded_x "check_bounded_x (%1%)" (.finite 1) .neg_inf (.finite 1) (.finite 0)
        .throwing = .returned true (.finite 0) ∧
      ∃ v, check_bounded_x "check_bounded_x (%1%)" (.finite 0) .pos_inf (.finite 1) (.finite 0)
        .throwing = .domain_error "check_bounded_x (%1%)" v (.finite 0) :=
  ⟨(C13_check_bounded_x_throwing "check_bounded_x (%1%)" (.finite 1) .neg_inf (.finite 1)
      (.finite 0)).2.1.mpr ⟨1, rfl, Or.inl rfl, Or.inr ⟨1, rfl, le_refl 1⟩⟩,
    (C13_check_bounded_x_throwing "check_bounded_x (%1%)" (.finite 0) .pos_inf (.finite 1)
      (.finite 0)).2.2.2 (Or.inl rfl)⟩

/-- C14. With the sentinel policy the bounded check never raises and accepts exactly the inputs
the throwing policy accepts: where the throwing policy raises (be it for `x` or for a bound) it
returns `false` and the output becomes NaN; elsewhere it returns `true` and leaves the output as
it was. -/
theorem C14_check_bounded_x_sentinel (function : String) (x low high result : Num) :
    (∀ f v r, check_bounded_x function x low high result .sentinel ≠ .domain_error f v r) ∧
      ((∃ f v r, check_bounded_x function x low high result .throwing = .domain_error f v r) →
        check_bounded_x function x low high result .sentinel = .returned false .nan) ∧
      ((¬∃ f v r, check_bounded_x function x low high result .throwing = .domain_error f v r) →
        check_bounded_x function x low high result .sentinel = .returned true result) ∧
      ((x.isfinite = false ∨ low.isnan = true ∨ high.isnan = true ∨ low.le x = false ∨
          x.le high = false) →
        check_bounded_x function x low high result .sentinel = .returned false .nan) := by
  by_cases hv : x.isfinite = true ∧ low.isnan = false ∧ high.isnan = false ∧
      low.le x = true ∧ x.le high = true
  · have hs := check_bounded_x_of_valid function x low high result .sentinel hv
    have ht := check_bounded_x_of_valid function x low high result .throwing hv
    refine ⟨by rw [hs]; simp, ?_, fun _ => hs, ?_⟩
    · rintro ⟨f, v, r, h⟩
      rw [ht] at h
      simp at h
    · obtain ⟨h1, h2, h3, h4, h5⟩ := hv
      simp [h1, h2, h3, h4, h5]
  · obtain ⟨v, hs⟩ := check_bounded_x_of_invalid function x low high result .sentinel hv
    obtain ⟨v', ht⟩ := check_bounded_x_of_invalid function x low high result .throwing hv
    have hs' : check_bounded_x function x low high result .sentinel = .returned false .nan := hs
    refine ⟨by rw [hs']; simp, fun _ => hs', ?_, fun _ => hs'⟩
    intro h
    exact absurd ⟨function, v', result, ht⟩ h

theorem C14_check_bounded_x_sentinel_witness :
    check_bounded_x "check_bounded_x (%1%)" (.finite 0) .nan (.finite 1) (.finite 0) .sentinel =
        .returned false .nan ∧
      check_bounded_x "check_bounded_x (%1%)" (.finite 0) (.finite (-1)) (.finite 1) (.finite 0)
        .sentinel = .returned true (.finite 0) :=
  ⟨(C14_check_bounded_x_sentinel "check_bounded_x (%1%)" (.finite 0) .nan (.finite 1)
      (.finite 0)).2.2.2 (Or.inr (Or.inl rfl)),
    (C14_check_bounded_x_sentinel "check_bounded_x (%1%)" (.finite 0) (.finite (-1)) (.finite 1)
      (.finite 0)).2.2.1 (by
        rintro ⟨f, v, r, h⟩
        rw [check_bounded_x_of_valid _ _ _ _ _ _ (by decide)] at h
        cases h)⟩

section Order
variable {S A R W K O C M E : Type}

theorem iteration_calls_filterMap_iter (p : Args) (model : M) (m : Nat) (s : S) (x' : A × R × S) :
    ∀ b ∈ (iteration_calls p model m s x').filterMap Call.iter, b = m := by
  intro b hb
  obtain ⟨c, hc, hcb⟩ := List.mem_filterMap.mp hb
  rw [iteration_calls_iter p model m s x' hc] at hcb
  exact (Option.some.inj hcb).symm

theorem loop_calls_iter_sorted (env : Env S A R W K O C M E) (p : Args) (model : M) :
    ∀ (k m : Nat) (x : A × R × S),
      ((loop_calls env p model k m x).filterMap Call.iter).Pairwise (· ≤ ·) := by
  intro k
  induction k with
  | zero => intro m x; simp [loop_calls]
  | succ k ih =>
    intro m x
    unfold loop_calls
    split
    · rename_i x' hx
      rw [List.filterMap_append, List.pairwise_append]
      refine ⟨?_, ih (m + 1) x', ?_⟩
      · rw [List.pairwise_iff_forall_sublist]
        intro a b hab
        have ha := iteration_calls_filterMap_iter p model m x.2.2 x' a (hab.subset (by simp))
        have hb := iteration_calls_filterMap_iter p model m x.2.2 x' b (hab.subset (by simp))
        omega
      · intro a ha b hb
        have ha' := iteration_calls_filterMap_iter p model m x.2.2 x' a ha
        obtain ⟨c, hc, hcb⟩ := List.mem_filterMap.mp hb
        obtain ⟨i, h1, _, h3⟩ := loop_calls_iter env p model k (m + 1) x' hc
        rw [h3] at hcb
        have : i = b := Option.some.inj hcb
        omega
    · simp

theorem filter_iter_eq_nil (l : List (Call S A R M)) (m : Nat) (h : ∀ c ∈ l, c.iter ≠ some m) :
    l.filter (fun c => c.iter == some m) = [] := by
  rw [List.filter_eq_nil_iff]
  intro c hc
  simp [h c hc]

theorem filter_iter_eq_self (l : List (Call S A R M)) (m : Nat) (h : ∀ c ∈ l, c.iter = some m) :
    l.filter (fun c => c.iter == some m) = l := by
  rw [List.filter_eq_self]
  intro c hc
  simp [h c hc]

theorem loop_calls_iteration (env : Env S A R W K O C M E) (p : Args) (model : M) :
    ∀ (k m : Nat) (x y : A × R × S), transitions env k x = .ok y →
      ∀ i, i < k → ∃ xi xi', transitions env i x = .ok xi ∧ transitions env (i + 1) x = .ok xi' ∧
        (loop_calls env p model k m x).filter (fun c => c.iter == some (m + i)) =
          iteration_calls p model (m + i) xi.2.2 xi' := by
  intro k
  induction k with
  | zero => intro m x y _ i hi; omega
  | succ k ih =>
    intro m x y h i hi
    obtain ⟨x', hx, hy⟩ := transitions_succ_ok env k x y h
    simp only [loop_calls, hx, List.filter_append]
    cases i with
    | zero =>
      refine ⟨x, x', rfl, by simp [transitions, hx], ?_⟩
      rw [Nat.add_zero, filter_iter_eq_self _ _ (fun c hc => iteration_calls_iter p model m _ _ hc),
        filter_iter_eq_nil, List.append_nil]
      intro c hc
      obtain ⟨j, h1, _, h3⟩ := loop_calls_iter env p model k (m + 1) x' hc
      rw [h3]; simp; omega
    | succ i =>
      obtain ⟨xi, xi', hxi, hxi', hw⟩ := ih (m + 1) x' y hy i (by omega)
      refine ⟨xi, xi', by rw [transitions_succ env i x x' hx]; exact hxi,
        by rw [transitions_succ env (i + 1) x x' hx]; exact hxi', ?_⟩
      have hm : m + (i + 1) = m + 1 + i := by omega
      rw [hm, hw, filter_iter_eq_nil, List.nil_append]
      intro c hc
      rw [iteration_calls_iter p model m _ _ hc]; simp; omega

theorem iteration_calls_callback (p : Args) (model : M) (m : Nat) (s : S) (x' : A × R × S) :
    (iteration_calls p model m s x').filter Call.isCallback = [.callback m] := by
  unfold iteration_calls
  split <;> simp [Call.isCallback]

theorem iteration_calls_progress (p : Args) (model : M) (m : Nat) (s : S) (x' : A × R × S) :
    (iteration_calls p model m s x').filter Call.isProgress = [.print_progress m] := by
  unfold iteration_calls
  split <;> simp [Call.isProgress]

theorem loop_calls_callback_count (env : Env S A R W K O C M E) (p : Args) (model : M) :
    ∀ (k m : Nat) (x y : A × R × S), transitions env k x = .ok y →
      ((loop_calls env p model k m x).filter Call.isCallback).length = k := by
  intro k
  induction k with
  | zero => intro m x y _; simp [loop_calls]
  | succ k ih =>
    intro m x y h
    obtain ⟨x', hx, hy⟩ := transitions_succ_ok env k x y h
    simp only [loop_calls, hx, List.filter_append, iteration_calls_callback,
      List.singleton_append, List.length_cons, ih (m + 1) x' y hy]

theorem loop_calls_progress_count (env : Env S A R W K O C M E) (p : Args) (model : M) :
    ∀ (k m : Nat) (x y : A × R × S), transitions env k x = .ok y →
      ((loop_calls env p model k m x).filter Call.isProgress).length = k := by
  intro k
  induction k with
  | zero => intro m x y _; simp [loop_calls]
  | succ k ih =>
    intro m x y h
    obtain ⟨x', hx, hy⟩ := transitions_succ_ok env k x y h
    simp only [loop_calls, hx, List.filter_append, iteration_calls_progress,
      List.singleton_append, List.length_cons, ih (m + 1) x' y hy]

theorem load_calls_iter (p : Args) (w : World S A R W K O C) {c : Call S A R M}
    (h : c ∈ (load_calls p w : List (Call S A R M))) : c.isLoad = true := by
  unfold load_calls at h
  split at h
  · simp at h
  · simp only [List.mem_cons, List.mem_singleton, List.not_mem_nil, or_false] at h
    rcases h with rfl | rfl <;> rfl

theorem save_calls_iter (p : Args) (model : M) (w : World S A R W K O C) {c : Call S A R M}
    (h : c ∈ save_calls p model w) : c.isSave = true := by
  unfold save_calls at h
  split at h
  · simp at h
  · simp only [List.mem_cons, List.mem_singleton, List.not_mem_nil, or_false] at h
    rcases h with rfl | rfl | rfl <;> rfl

theorem Call.not_callback_of_iter_none {c : Call S A R M} (h : c.iter = none) :
    c.isCallback = false ∧ c.isProgress = false ∧ c.isTransition = false := by
  cases c <;> simp [Call.iter] at h <;> exact ⟨rfl, rfl, rfl⟩

theorem filter_nil_of_iter_none (l : List (Call S A R M)) (g : Call S A R M → Bool)
    (hl : ∀ c ∈ l, c.iter = none) (hg : ∀ c : Call S A R M, c.iter = none → g c = false) :
    l.filter g = [] := by
  rw [List.filter_eq_nil_iff]
  intro c hc
  simp [hg c (hl c hc)]

theorem filterMap_iter_nil (l : List (Call S A R M)) (hl : ∀ c ∈ l, c.iter = none) :
    l.filterMap Call.iter = [] := by
  rw [List.filterMap_eq_nil_iff]
  exact hl

/-- C15. In a run that returns, the loop indices of the logged calls never decrease along the log
and are all below `num_iterations`; the calls of iteration `m` are, in this order, the callback,
the progress report for `m`, the transition (on the state after `m` transitions) and, when
`save && m % num_thin == 0`, the two writer calls (on the state after `m + 1` transitions); the
callback, the progress report and the transition are each called `num_iterations` times; and no
call of iteration `m` comes after the callback of iteration `m + 1`. -/
theorem C15_iteration_order (env : Env S A R W K O C M E) (p : Args) (model : M)
    (w : World S A R W K O C) (hdone : (run_markov_chain env p model w).fault = none) :
    ((run_markov_chain env p model w).calls.filterMap Call.iter).Pairwise (· ≤ ·) ∧
      (∀ c ∈ (run_markov_chain env p model w).calls, ∀ m, c.iter = some m →
        m < p.num_iterations.toNat) ∧
      (∀ m, m < p.num_iterations.toNat →
        ∃ x x', transitions env m (load_block env p w : Run E _ (Call S A R M)).state.chain = .ok x ∧
          transitions env (m + 1) (load_block env p w : Run E _ (Call S A R M)).state.chain
            = .ok x' ∧
          (run_markov_chain env p model w).calls.filter (fun c => c.iter == some m) =
            [.callback m, .print_progress m, .transition m x.2.2] ++
              if p.save = true ∧ (m : Int).tmod p.num_thin = 0 then
                [.write_sample_params m x'.2.1 x'.2.2 x'.1 model,
                  .write_diagnostic_params m x'.2.2 x'.1]
              else []) ∧
      ((run_markov_chain env p model w).calls.filter Call.isCallback).length =
        p.num_iterations.toNat ∧
      ((run_markov_chain env p model w).calls.filter Call.isProgress).length =
        p.num_iterations.toNat ∧
      ((run_markov_chain env p model w).calls.filter Call.isTransition).length =
        p.num_iterations.toNat ∧
      (∀ m l1 l2, (run_markov_chain env p model w).calls = l1 ++ .callback (m + 1) :: l2 →
        ∀ c ∈ l2, c.iter ≠ some m) := by
  obtain ⟨h0, ht, hc⟩ := run_markov_chain_done env p model w hdone
  have hload : ∀ c ∈ (load_calls p w : List (Call S A R M)), c.iter = none :=
    fun c h => Call.iter_of_load (load_calls_iter p w h)
  have hsave : ∀ c ∈ save_calls p model (run_markov_chain env p model w).state, c.iter = none :=
    fun c h => Call.iter_of_save (save_calls_iter p model _ h)
  have hsorted : ((run_markov_chain env p model w).calls.filterMap Call.iter).Pairwise (· ≤ ·) := by
    rw [hc, List.filterMap_append, List.filterMap_append, filterMap_iter_nil _ hload,
      filterMap_iter_nil _ hsave, List.nil_append, List.append_nil]
    exact loop_calls_iter_sorted env p model _ 0 _
  have hcount : ∀ g : Call S A R M → Bool, (∀ c : Call S A R M, c.iter = none → g c = false) →
      (run_markov_chain env p model w).calls.filter g =
        (loop_calls env p model p.num_iterations.toNat 0
          (load_block env p w : Run E _ (Call S A R M)).state.chain).filter g := by
    intro g hg
    rw [hc, List.filter_append, List.filter_append, filter_nil_of_iter_none _ g hload hg,
      filter_nil_of_iter_none _ g hsave hg, List.nil_append, List.append_nil]
  refine ⟨hsorted, ?_, ?_, ?_, ?_, ?_, ?_⟩
  · intro c hcm m hm
    rw [hc, List.mem_append, List.mem_append] at hcm
    rcases hcm with (hcm | hcm) | hcm
    · rw [hload c hcm] at hm; exact absurd hm (by simp)
    · obtain ⟨i, _, h2, h3⟩ := loop_calls_iter env p model _ 0 _ hcm
      rw [h3] at hm
      have : i = m := Option.some.inj hm
      omega
    · rw [hsave c hcm] at hm; exact absurd hm (by simp)
  · intro m hm
    obtain ⟨x, x', hx, hx', hf⟩ := loop_calls_iteration env p model _ 0 _ _ ht m hm
    refine ⟨x, x', hx, hx', ?_⟩
    rw [hcount _ (by intro c h; simp [h]), ← Nat.zero_add m, hf, Nat.zero_add]
    rfl
  · rw [hcount _ (fun c h => (Call.not_callback_of_iter_none h).1)]
    exact loop_calls_callback_count env p model _ 0 _ _ ht
  · rw [hcount _ (fun c h => (Call.not_callback_of_iter_none h).2.1)]
    exact loop_calls_progress_count env p model _ 0 _ _ ht
  · rw [hcount _ (fun c h => (Call.not_callback_of_iter_none h).2.2)]
    exact (loop_calls_transition env p model _ 0 _ _ ht).1
  · intro m l1 l2 hl c hcm hci
    rw [hl, List.filterMap_append, List.filterMap_cons_some (by rfl : Call.iter (.callback (m + 1) : Call S A R M) = some (m + 1)),
      List.pairwise_append] at hsorted
    have h2 := (List.pairwise_cons.mp hsorted.2.1).1 m (List.mem_filterMap.mpr ⟨c, hcm, hci⟩)
    omega

theorem C15_iteration_order_witness :
    (run_markov_chain demoEnv (demoArgs 2 2 true true) () (demoWorld 9)).calls =
        [.callback 0, .print_progress 0, .transition 0 1,
          .write_sample_params 0 1 2 1 (), .write_diagnostic_params 0 2 1,
          .callback 1, .print_progress 1, .transition 1 2] ∧
      ((run_markov_chain demoEnv (demoArgs 2 2 true true) () (demoWorld 9)).calls.filter
        Call.isCallback).length = 2 := by
  have h := C15_iteration_order demoEnv (demoArgs 2 2 true true) () (demoWorld 9) (by decide)
  exact ⟨by decide, h.2.2.2.1⟩

end Order

section NoIteration
variable {S A R W K O C M E : Type}

theorem load_block_init_s (env : Env S A R W K O C M E) (p : Args) (w : World S A R W K O C) :
    (load_block env p w : Run E _ (Call S A R M)).state.init_s = w.init_s := by
  unfold load_block call_load_sampler_specific call_load_rng
  cases hw : p.warmup with
  | true => simp [Run.skip]
  | false =>
    cases h1 : env.load_sampler_specific w.resume_recorder w.sampler with
    | error e => simp [Run.andThen, invoke, Except.map]
    | ok ka =>
      cases h2 : env.load_rng ka.1 w.base_rng with
      | error e => simp [Run.andThen, invoke, Except.map, h2]
      | ok kr => simp [Run.andThen, invoke, Except.map, h2]

theorem save_block_init_s (env : Env S A R W K O C M E) (p : Args) (model : M)
    (w : World S A R W K O C) : (save_block env p model w).state.init_s = w.init_s := by
  unfold save_block call_save_inits call_save_sampler_specific call_save_rng
  cases hw : p.warmup with
  | true => simp [Run.skip]
  | false =>
    cases h1 : env.save_inits w.resume_recorder model w.base_rng w.init_s with
    | error e => simp [Run.andThen, invoke, Except.map]
    | ok k1 =>
      cases h2 : env.save_sampler_specific k1 w.sampler with
      | error e => simp [Run.andThen, invoke, Except.map, h2]
      | ok k2 =>
        cases h3 : env.save_rng k2 w.base_rng with
        | error e => simp [Run.andThen, invoke, Except.map, h2, h3]
        | ok k3 => simp [Run.andThen, invoke, Except.map, h2, h3]

/-- With `num_iterations <= 0` the run is the load block followed by the save block. -/
theorem run_markov_chain_no_iteration (env : Env S A R W K O C M E) (p : Args) (model : M)
    (w : World S A R W K O C) (hn : p.num_iterations ≤ 0) :
    run_markov_chain env p model w =
      (load_block env p w).andThen fun w => save_block env p model w := by
  have h0 : p.num_iterations.toNat = 0 := by omega
  unfold run_markov_chain
  rw [h0]
  congr 1

/-- C16. With `num_iterations <= 0` no call of the log belongs to an iteration (no callback, no
progress report, no transition, no writer call) and `init_s` is left as it was.  A warmup run
then does nothing at all; a sampling run that returns makes exactly the two loads followed by the
three saves, `save_inits` receiving the unchanged `init_s` (and the sampler and generator state
just loaded). -/
theorem C16_no_iteration (env : Env S A R W K O C M E) (p : Args) (model : M)
    (w : World S A R W K O C) (hn : p.num_iterations ≤ 0) :
    (∀ c ∈ (run_markov_chain env p model w).calls,
        c.iter = none ∧ c.isCallback = false ∧ c.isProgress = false ∧ c.isTransition = false ∧
          c.isWriter = false) ∧
      (run_markov_chain env p model w).state.init_s = w.init_s ∧
      (p.warmup = true → run_markov_chain env p model w = ⟨[], none, w⟩) ∧
      (p.warmup = false → (run_markov_chain env p model w).fault = none →
        ∃ ka kr, env.load_sampler_specific w.resume_recorder w.sampler = .ok ka ∧
          env.load_rng ka.1 w.base_rng = .ok kr ∧
          (run_markov_chain env p model w).calls =
            [.load_sampler_specific w.sampler, .load_rng w.base_rng,
              .save_inits model kr.2 w.init_s, .save_sampler_specific ka.2, .save_rng kr.2]) := by
  have hrun := run_markov_chain_no_iteration env p model w hn
  refine ⟨?_, ?_, ?_, ?_⟩
  · intro c hc
    have hnone : c.iter = none := by
      rw [hrun] at hc
      rcases Run.mem_andThen hc with h | h
      · exact Call.iter_of_load (load_block_mem env p w h).1
      · exact Call.iter_of_save (save_block_mem env p model _ h).1
    obtain ⟨h1, h2, h3⟩ := Call.not_callback_of_iter_none hnone
    refine ⟨hnone, h1, h2, h3, ?_⟩
    cases c <;> simp [Call.iter] at hnone <;> rfl
  · rw [hrun]
    cases h0 : (load_block env p w : Run E _ (Call S A R M)).fault with
    | some f => rw [Run.andThen_of_fault h0]; exact load_block_init_s env p w
    | none =>
      rw [Run.andThen_state h0, save_block_init_s, load_block_init_s]
  · intro hw
    rw [hrun, load_block_warmup env p w hw]
    simp [Run.andThen, Run.skip, save_block_warmup env p model w hw]
  · intro hw hf
    obtain ⟨h0, ht, hc⟩ := run_markov_chain_done env p model w hf
    obtain ⟨ka, kr, hka, hkr, hst⟩ := load_block_sampling (M := M) env p w hw h0
    refine ⟨ka, kr, hka, hkr, ?_⟩
    have hN : p.num_iterations.toNat = 0 := by omega
    have hchain : (run_markov_chain env p model w).state.chain = (ka.2, kr.2, w.init_s) := by
      rw [hN, hst] at ht
      simp only [transitions, Except.ok.injEq] at ht
      exact ht.symm
    simp only [World.chain, Prod.mk.injEq] at hchain
    rw [hc, hN]
    simp [load_calls, save_calls, loop_calls, hw, hchain.1, hchain.2.1, hchain.2.2]

theorem C16_no_iteration_witness :
    (run_markov_chain demoEnv (demoArgs (-3) 0 true false) () (demoWorld 9)).calls =
        [.load_sampler_specific 0, .load_rng 0, .save_inits () 9 1, .save_sampler_specific 7,
          .save_rng 9] ∧
      (run_markov_chain demoEnv (demoArgs (-3) 0 true false) () (demoWorld 9)).state.init_s = 1 := by
  have h := C16_no_iteration demoEnv (demoArgs (-3) 0 true false) () (demoWorld 9) (by decide)
  obtain ⟨ka, kr, hka, hkr, hc⟩ := h.2.2.2 rfl (by decide)
  have hka' : ka = (⟨5, 7, 9⟩, 7) := (Except.ok.inj hka).symm
  subst hka'
  have hkr' : kr = (⟨5, 7, 9⟩, 9) := (Except.ok.inj hkr).symm
  subst hkr'
  exact ⟨hc, h.2.1⟩

end NoIteration

section Remainder
variable {S A R W K O C M E : Type}

theorem Run.andThen_fault_some {σ κ : Type} {r : Run E σ κ} {f : σ → Run E σ κ} {x : Fault E}
    (h : (r.andThen f).fault = some x) :
    r.fault = some x ∨ (r.fault = none ∧ (f r.state).fault = some x) := by
  cases h0 : r.fault with
  | some y => rw [Run.andThen_of_fault h0] at h; exact Or.inl (h0 ▸ h)
  | none => rw [Run.andThen_fault h0] at h; exact Or.inr ⟨rfl, h⟩

theorem invoke_fault_ne_remainder {σ κ : Type} (c : κ) (res : Except E σ) (w : σ) :
    (invoke c res w).fault ≠ some .remainder_by_zero := by
  cases res <;> simp [invoke]

theorem record_block_remainder (env : Env S A R W K O C M E) (p : Args) (model : M) (m : Nat)
    (w : World S A R W K O C)
    (h : (record_block env p model m w).fault = some .remainder_by_zero) :
    p.save = true ∧ p.num_thin = 0 := by
  unfold record_block at h
  split at h
  · rename_i hs
    split at h
    · rename_i hz; exact ⟨hs, hz⟩
    · split at h
      · rcases Run.andThen_fault_some h with h | ⟨_, h⟩
        · exact absurd h (invoke_fault_ne_remainder _ _ _)
        · exact absurd h (invoke_fault_ne_remainder _ _ _)
      · simp [Run.skip] at h
  · simp [Run.skip] at h

theorem loop_body_remainder (env : Env S A R W K O C M E) (p : Args) (model : M) (m : Nat)
    (w : World S A R W K O C)
    (h : (loop_body env p model m w).fault = some .remainder_by_zero) :
    p.save = true ∧ p.num_thin = 0 := by
  unfold loop_body at h
  rcases Run.andThen_fault_some h with h | ⟨_, h⟩
  · exact absurd h (invoke_fault_ne_remainder _ _ _)
  · rcases Run.andThen_fault_some h with h | ⟨_, h⟩
    · exact absurd h (invoke_fault_ne_remainder _ _ _)
    · rcases Run.andThen_fault_some h with h | ⟨_, h⟩
      · exact absurd h (invoke_fault_ne_remainder _ _ _)
      · exact record_block_remainder env p model m _ h

/-- The only way a run stops on the undefined remainder: `save` holds, `num_thin` is zero and
there is an iteration to record. -/
theorem run_markov_chain_remainder (env : Env S A R W K O C M E) (p : Args) (model : M)
    (w : World S A R W K O C)
    (h : (run_markov_chain env p model w).fault = some .remainder_by_zero) :
    p.save = true ∧ p.num_thin = 0 ∧ 0 < p.num_iterations := by
  unfold run_markov_chain at h
  rcases Run.andThen_fault_some h with h | ⟨_, h⟩
  · exfalso
    unfold load_block at h
    split at h
    · rcases Run.andThen_fault_some h with h | ⟨_, h⟩
      · exact absurd h (invoke_fault_ne_remainder _ _ _)
      · exact absurd h (invoke_fault_ne_remainder _ _ _)
    · simp [Run.skip] at h
  · rcases Run.andThen_fault_some h with h | ⟨_, h⟩
    · obtain ⟨j, hj, _, hb, _⟩ := for_loop_fault env p model _ 0 _ _ h
      obtain ⟨hs, hz⟩ := loop_body_remainder env p model _ _ hb
      exact ⟨hs, hz, by omega⟩
    · exfalso
      unfold save_block at h
      split at h
      · rcases Run.andThen_fault_some h with h | ⟨_, h⟩
        · exact absurd h (invoke_fault_ne_remainder _ _ _)
        · rcases Run.andThen_fault_some h with h | ⟨_, h⟩
          · exact absurd h (invoke_fault_ne_remainder _ _ _)
          · exact absurd h (invoke_fault_ne_remainder _ _ _)
      · simp [Run.skip] at h

/-- C18. With `num_thin >= 1` no run stops on a remainder by zero.  With `save = false` the
remainder is not evaluated: no run stops on it whatever `num_thin` is, zero included, and the run
returns whenever no collaborator throws.  (The remainder is evaluated only with `save = true`, and
is undefined only for `num_thin = 0`.) -/
theorem C18_remainder_defined (env : Env S A R W K O C M E) (p : Args) (model : M)
    (w : World S A R W K O C) :
    (1 ≤ p.num_thin → (run_markov_chain env p model w).fault ≠ some .remainder_by_zero) ∧
      (p.save = false → (run_markov_chain env p model w).fault ≠ some .remainder_by_zero) ∧
      (p.save = false → env.Returns → (run_markov_chain env p model w).fault = none) ∧
      ((run_markov_chain env p model w).fault = some .remainder_by_zero →
        p.save = true ∧ p.num_thin = 0) := by
  refine ⟨?_, ?_, ?_, ?_⟩
  · intro hk h
    have := (run_markov_chain_remainder env p model w h).2.1
    omega
  · intro hs h
    have := (run_markov_chain_remainder env p model w h).1
    rw [hs] at this
    exact absurd this (by simp)
  · intro hs henv
    exact run_markov_chain_returns env p model w henv (fun h => by rw [hs] at h; exact absurd h (by simp))
  · intro h
    exact ⟨(run_markov_chain_remainder env p model w h).1,
      (run_markov_chain_remainder env p model w h).2.1⟩

theorem steadyEnv_returns : steadyEnv.Returns :=
  ⟨fun _ => ⟨_, rfl⟩, fun _ _ _ _ _ _ _ _ => ⟨_, rfl⟩, fun _ _ _ => ⟨_, rfl⟩,
    fun _ _ _ _ _ => ⟨_, rfl⟩, fun _ _ _ => ⟨_, rfl⟩, fun _ _ => ⟨_, rfl⟩, fun _ _ => ⟨_, rfl⟩,
    fun _ _ _ _ => ⟨_, rfl⟩, fun _ _ => ⟨_, rfl⟩, fun _ _ => ⟨_, rfl⟩⟩

theorem C18_remainder_defined_witness :
    (run_markov_chain steadyEnv (demoArgs 3 0 false true) () (demoWorld 9)).fault = none ∧
      (run_markov_chain steadyEnv (demoArgs 3 0 true true) () (demoWorld 9)).fault =
        some .remainder_by_zero ∧
      (run_markov_chain steadyEnv (demoArgs 3 1 true true) () (demoWorld 9)).fault ≠
        some .remainder_by_zero :=
  ⟨(C18_remainder_defined steadyEnv (demoArgs 3 0 false true) () (demoWorld 9)).2.2.1 rfl
      steadyEnv_returns,
    by decide,
    (C18_remainder_defined steadyEnv (demoArgs 3 1 true true) () (demoWorld 9)).1 (by decide)⟩

end Remainder

section Split
variable {S A R W K O C M E : Type}

/-- Thinning is not transparent: with `num_thin = 2`, one iteration followed by two records the
draws of iterations 0 and 1, a single call of three iterations those of iterations 0 and 2. -/
theorem split_run_thinning_restarts :
    ((run_markov_chain demoEnv (demoArgs 1 2 true true) () (demoWorld 9)).calls ++
        (run_markov_chain demoEnv (demoArgs 2 2 true true) ()
          (run_markov_chain demoEnv (demoArgs 1 2 true true) () (demoWorld 9)).state).calls).filterMap
        Call.sample = [(1, 2, 1), (2, 5, 2)] ∧
      (run_markov_chain demoEnv (demoArgs 3 2 true true) () (demoWorld 9)).calls.filterMap
        Call.sample = [(1, 2, 1), (3, 12, 3)] := by
  decide

end Split

section Forward
variable {S A R W K O C M E : Type}

theorem Run.skip_andThen {σ κ : Type} (w : σ) (f : σ → Run E σ κ) :
    (Run.skip w).andThen f = f w := rfl

theorem Run.andThen_assoc {σ κ : Type} (r : Run E σ κ) (f g : σ → Run E σ κ) :
    (r.andThen f).andThen g = r.andThen fun w => (f w).andThen g := by
  cases h0 : r.fault with
  | some x =>
    rw [Run.andThen_of_fault h0, Run.andThen_of_fault h0, Run.andThen_of_fault h0]
  | none =>
    cases h1 : (f r.state).fault with
    | some y =>
      have hrf : (r.andThen f).fault = some y := by rw [Run.andThen_fault h0]; exact h1
      rw [Run.andThen_of_fault hrf]
      simp [Run.andThen, h0, h1]
    | none =>
      simp [Run.andThen, h0, h1]

theorem for_loop_add (env : Env S A R W K O C M E) (p : Args) (model : M) :
    ∀ (j k m : Nat) (w : World S A R W K O C),
      for_loop env p model (j + k) m w =
        (for_loop env p model j m w).andThen (for_loop env p model k (m + j)) := by
  intro j
  induction j with
  | zero =>
    intro k m w
    rw [Nat.zero_add]
    rfl
  | succ j ih =>
    intro k m w
    have e : j + 1 + k = (j + k) + 1 := by omega
    rw [e, for_loop, for_loop, Run.andThen_assoc]
    congr 1
    funext w'
    have e2 : m + (j + 1) = m + 1 + j := by omega
    rw [ih k (m + 1) w', e2]

/-- An iteration that stops ends the loop: when the first `j` iterations return and iteration
`j` stops with a fault, the loop stops there with that fault, whatever number of iterations was
still to come. -/
theorem for_loop_stops (env : Env S A R W K O C M E) (p : Args) (model : M) (j k m : Nat)
    (w : World S A R W K O C) (f : Fault E) (hj : j < k)
    (h0 : (for_loop env p model j m w).fault = none)
    (hb : (loop_body env p model (m + j) (for_loop env p model j m w).state).fault = some f) :
    for_loop env p model k m w =
      ⟨(for_loop env p model j m w).calls ++
          (loop_body env p model (m + j) (for_loop env p model j m w).state).calls,
        some f, (loop_body env p model (m + j) (for_loop env p model j m w).state).state⟩ := by
  obtain ⟨d, rfl⟩ : ∃ d, k = j + (d + 1) := ⟨k - j - 1, by omega⟩
  rw [for_loop_add]
  have hstop : for_loop env p model (d + 1) (m + j) (for_loop env p model j m w).state =
      loop_body env p model (m + j) (for_loop env p model j m w).state := by
    rw [for_loop, Run.andThen_of_fault hb]
  simp only [Run.andThen, h0, hstop, hb]

/-- A callback that throws stops the iteration at once. -/
theorem loop_body_callback_raises (env : Env S A R W K O C M E) (p : Args) (model : M) (m : Nat)
    (w : World S A R W K O C) (e : E) (h : env.callback w.callback = .error e) :
    loop_body env p model m w = ⟨[.callback m], some (.raised e), w⟩ := by
  simp [loop_body, call_callback, invoke, Except.map, Run.andThen, h]

end Forward

section CallbackStops
variable {S A R W K O C M E : Type}

/-- C7. When the run reaches iteration `m < num_iterations` (the loads and the first `m`
iterations return) and the callback throws `e` there, the run ends with the failure `e`: its log
is the log up to there followed by that callback call and nothing else, the state left is the one
the `m` iterations produced, that is the state after exactly `m` transitions; exactly `m`
transition calls were made, no call other than that callback belongs to iteration `m` or a later
one (no progress report, transition or writer call), and no `save_` call is made. -/
theorem C7_callback_raises (env : Env S A R W K O C M E) (p : Args) (model : M)
    (w : World S A R W K O C) (e : E) (m : Nat) (hm : (m : Int) < p.num_iterations)
    (h0 : (load_block env p w : Run E _ (Call S A R M)).fault = none)
    (hpre : (for_loop env p model m 0 (load_block env p w).state).fault = none)
    (hcb : env.callback (for_loop env p model m 0 (load_block env p w).state).state.callback =
      .error e) :
    (run_markov_chain env p model w).fault = some (.raised e) ∧
      (run_markov_chain env p model w).calls =
        (load_block env p w).calls ++ (for_loop env p model m 0 (load_block env p w).state).calls ++
          [.callback m] ∧
      (run_markov_chain env p model w).state =
        (for_loop env p model m 0 (load_block env p w).state).state ∧
      transitions env m (load_block env p w : Run E _ (Call S A R M)).state.chain =
        .ok (run_markov_chain env p model w).state.chain ∧
      ((run_markov_chain env p model w).calls.filter Call.isTransition).length = m ∧
      (∀ c ∈ (run_markov_chain env p model w).calls, ∀ i, c.iter = some i → m ≤ i →
        c = .callback m) ∧
      (∀ c ∈ (run_markov_chain env p model w).calls, c.isSave = false) := by
  have hlt : m < p.num_iterations.toNat := by omega
  have hbody := loop_body_callback_raises env p model (0 + m) _ e hcb
  have hloop := for_loop_stops env p model m p.num_iterations.toNat 0 (load_block env p w).state
    (.raised e) hlt hpre (by rw [hbody])
  rw [hbody, Nat.zero_add] at hloop
  have hrun : run_markov_chain env p model w =
      ⟨(load_block env p w).calls ++ ((for_loop env p model m 0 (load_block env p w).state).calls
          ++ [.callback m]), some (.raised e),
        (for_loop env p model m 0 (load_block env p w).state).state⟩ := by
    unfold run_markov_chain
    simp only [Run.andThen, h0, hloop]
  have hf : (run_markov_chain env p model w).fault = some (.raised e) := by rw [hrun]
  have hc : (run_markov_chain env p model w).calls =
      (load_block env p w).calls ++ (for_loop env p model m 0 (load_block env p w).state).calls ++
        [.callback m] := by rw [hrun, List.append_assoc]
  have hl : (run_markov_chain env p model w).calls.getLast? = some (.callback m) := by
    rw [hc, List.getLast?_concat]
  obtain ⟨_, _, h3, h4, h5, h6⟩ := stopped_at_callback env p model w e m hf hl
  exact ⟨hf, hc, by rw [hrun], h3, h4, h5, h6⟩

theorem C7_callback_raises_witness :
    (run_markov_chain demoEnv (demoArgs 5 1 true false) () (demoWorld 2)).fault =
        some (.raised .cancelled) ∧
      (run_markov_chain demoEnv (demoArgs 5 1 true false) () (demoWorld 2)).calls =
        [.load_sampler_specific 0, .load_rng 0,
          .callback 0, .print_progress 0, .transition 0 1,
          .write_sample_params 0 10 11 8 (), .write_diagnostic_params 0 11 8,
          .callback 1, .print_progress 1, .transition 1 11,
          .write_sample_params 1 11 32 9 (), .write_diagnostic_params 1 32 9,
          .callback 2] ∧
      ((run_markov_chain demoEnv (demoArgs 5 1 true false) () (demoWorld 2)).calls.filter
        Call.isTransition).length = 2 := by
  have h := C7_callback_raises demoEnv (demoArgs 5 1 true false) () (demoWorld 2) .cancelled 2
    (by decide) (by decide) (by decide) rfl
  exact ⟨h.1, h.2.1.trans (by decide), h.2.2.2.2.1⟩

end CallbackStops

section RaiseStops
variable {S A R W K O C M E : Type}

/-- Each statement of the runner that calls a collaborator logs the call and performs it. -/
theorem call_statements_perform (env : Env S A R W K O C M E) (p : Args) (model : M) (m : Nat)
    (w : World S A R W K O C) :
    call_load_sampler_specific (M := M) env w =
        invoke (.load_sampler_specific w.sampler)
          ((Call.load_sampler_specific w.sampler : Call S A R M).perform env p w) w ∧
      call_load_rng (M := M) env w =
        invoke (.load_rng w.base_rng) ((Call.load_rng w.base_rng : Call S A R M).perform env p w) w ∧
      call_callback (M := M) env m w =
        invoke (.callback m) ((Call.callback m : Call S A R M).perform env p w) w ∧
      call_print_progress (M := M) env p m w =
        invoke (.print_progress m) ((Call.print_progress m : Call S A R M).perform env p w) w ∧
      call_transition (M := M) env m w =
        invoke (.transition m w.init_s)
          ((Call.transition m w.init_s : Call S A R M).perform env p w) w ∧
      call_write_sample_params env model m w =
        invoke (.write_sample_params m w.base_rng w.init_s w.sampler model)
          ((Call.write_sample_params m w.base_rng w.init_s w.sampler model).perform env p w) w ∧
      call_write_diagnostic_params (M := M) env m w =
        invoke (.write_diagnostic_params m w.init_s w.sampler)
          ((Call.write_diagnostic_params m w.init_s w.sampler : Call S A R M).perform env p w) w ∧
      call_save_inits env model w =
        invoke (.save_inits model w.base_rng w.init_s)
          ((Call.save_inits model w.base_rng w.init_s).perform env p w) w ∧
      call_save_sampler_specific (M := M) env w =
        invoke (.save_sampler_specific w.sampler)
          ((Call.save_sampler_specific w.sampler : Call S A R M).perform env p w) w ∧
      call_save_rng (M := M) env w =
        invoke (.save_rng w.base_rng) ((Call.save_rng w.base_rng : Call S A R M).perform env p w) w :=
  ⟨rfl, rfl, rfl, rfl, rfl, rfl, rfl, rfl, rfl, rfl⟩

theorem map_eq_error_iff {α β : Type} (x : Except E α) (f : α → β) (e : E) :
    x.map f = .error e ↔ x = .error e := by
  cases x <;> simp [Except.map]

/-- A logged call throws `e` in the sense of `Call.raises` exactly when performing it does. -/
theorem Call.raises_iff_perform (env : Env S A R W K O C M E) (p : Args)
    (w : World S A R W K O C) (e : E) (c : Call S A R M) :
    c.raises env p w e ↔ c.perform env p w = .error e := by
  cases c <;> exact (map_eq_error_iff _ _ e).symm

end RaiseStops

end Stan
